import Mathlib

/-!
Verification development for the goplaying terminal now-playing display.

The definitions below are shallow embeddings of the program's functions:
text scrolling (`scrollText`), the Kitty graphics wire-protocol assembly
(`encodeArtworkForKitty` and its chunking), the dominant-color extractor
(`extractDominantColor`), the artwork processor (`processArtwork`), the
playback-position interpolation (`getCurrentPosition`), and the Bubble Tea
event-loop transitions of `model.Update` (song-data results, vinyl-frame
results, config reloads, ticks) together with `updateVinylRotation`.
Machine integers are modelled as `Nat`/`Int` with explicit wrapping where
the code can overflow, Go float64 arithmetic is modelled exactly over `ℚ`,
and fallible Go code returns `Option`/`Except`.
-/

namespace GoPlaying

/-! ## Text scrolling (`scrollText`, loaded from the text helpers file)

Go source:
```
func scrollText(text string, max int, offset int) string {
    runes := []rune(text)
    if len(runes) <= max { return text }
    fullText := append(runes, []rune("  •  ")...)
    textLen := len(fullText)
    offset = offset % textLen
    var result []rune
    for i := 0; i < max; i++ {
        result = append(result, fullText[(offset+i)%textLen])
    }
    return string(result)
}
```
Strings are modelled as rune lists.  Go's `%` on `int` is truncated
division remainder (`Int.tmod`); a negative index into `fullText` would
panic in Go, which the embedding models by returning `none`.
-/

/-- The 5-rune scroll separator `"  •  "`. -/
def scrollSeparator : List Char := [' ', ' ', '•', ' ', ' ']

/-- One Go index expression `fullText[(offset+i)%textLen]`: truncated-mod
index, `none` models the Go panic on a negative index. -/
def scrollIndex (fullText : List Char) (off : Int) (i : Nat) : Option Char :=
  let idx : Int := (off + (i : Int)).tmod (fullText.length : Int)
  if idx < 0 then none else fullText.get? idx.toNat

/-- The Go `for i := 0; i < max; i++` loop building the visible window,
starting at loop index `i` with `count` iterations remaining. -/
def scrollBuild (fullText : List Char) (off : Int) (i : Nat) :
    Nat → Option (List Char)
  | 0 => some []
  | count + 1 =>
    match scrollIndex fullText off i, scrollBuild fullText off (i + 1) count with
    | some c, some rest => some (c :: rest)
    | _, _ => none

/-- Shallow embedding of `scrollText`. -/
def scrollText (text : List Char) (max : Nat) (offset : Int) :
    Option (List Char) :=
  if text.length ≤ max then some text
  else
    let fullText := text ++ scrollSeparator
    let off := offset.tmod (fullText.length : Int)
    scrollBuild fullText off 0 max

theorem scrollBuild_spec (fullText : List Char) (off : Nat) (hL : 0 < fullText.length) :
    ∀ count i, ∃ l, scrollBuild fullText ((off : Int).tmod (fullText.length : Int)) i count = some l ∧
      l.length = count ∧
      ∀ j, j < count → l.get? j = fullText.get? ((off + i + j) % fullText.length) := by
  intro count
  induction count with
  | zero =>
    intro i
    exact ⟨[], rfl, rfl, by intro j hj; omega⟩
  | succ k ih =>
    intro i
    obtain ⟨rest, hrest, hlen, hget⟩ := ih (i + 1)
    have htmod : (off : Int).tmod (fullText.length : Int) = ((off % fullText.length : Nat) : Int) := by
      rw [Int.tmod_eq_emod (by positivity) (by positivity)]
      push_cast
      rfl
    have hidx : ((off : Int).tmod (fullText.length : Int) + (i : Int)).tmod (fullText.length : Int)
        = (((off + i) % fullText.length : Nat) : Int) := by
      rw [htmod]
      rw [Int.tmod_eq_emod (by positivity) (by positivity)]
      push_cast
      exact Int.emod_add_emod _ _ _
    have hin : ((off + i) % fullText.length) < fullText.length := Nat.mod_lt _ hL
    obtain ⟨c, hc⟩ : ∃ c, fullText.get? ((off + i) % fullText.length) = some c :=
      ⟨fullText.get ⟨_, hin⟩, List.get?_eq_get hin⟩
    refine ⟨c :: rest, ?_, by simp [hlen], ?_⟩
    · unfold scrollBuild scrollIndex
      rw [hidx]
      have h0 : ¬ (((off + i) % fullText.length : Nat) : Int) < 0 :=
        not_lt.mpr (Int.natCast_nonneg _)
      simp only [h0, if_false, Int.toNat_natCast]
      rw [hc, hrest]
    · intro j hj
      cases j with
      | zero =>
        simp only [List.get?_cons_zero, Nat.add_zero]
        exact hc.symm
      | succ j =>
        rw [List.get?_cons_succ, hget j (by omega)]
        have harg : off + (i + 1) + j = off + i + (j + 1) := by omega
        rw [harg]

/-- C9: the claim states `scrollText("ABC", 5, offset)` returns a string of
exactly 5 runes cycling through `"ABC  •  "`.  In the code, text whose rune
length is at most `max` is returned unchanged, so the result is the 3-rune
string `"ABC"`, not a 5-rune window. -/
theorem scrollText_ABC_window5_not_five_runes :
    (GoPlaying.scrollText ['A', 'B', 'C'] 5 0).map List.length = some 3 ∧
      (3 : Nat) ≠ 5 := by
  constructor
  · rfl
  · decide

/-- C9 (amended): `scrollText("ABC", 5, offset)` returns `"ABC"` unchanged for
every integer offset, because text that fits in the window is never scrolled;
and for any text strictly longer than the window and any non-negative offset,
the result is exactly `max` runes read with wraparound from the padded
sequence `text ++ "  •  "`. -/
theorem scrollText_window_spec :
    (∀ offset : Int, GoPlaying.scrollText ['A', 'B', 'C'] 5 offset = some ['A', 'B', 'C']) ∧
    (∀ (text : List Char) (max : Nat) (off : Nat), max < text.length →
      ∃ res, GoPlaying.scrollText text max (off : Int) = some res ∧
        res.length = max ∧
        ∀ j, j < max →
          res.get? j = (text ++ scrollSeparator).get? ((off + j) % (text.length + 5))) := by
  constructor
  · intro offset
    simp [scrollText]
  · intro text max off hmax
    have hnotle : ¬ text.length ≤ max := by omega
    have hfull : (text ++ scrollSeparator).length = text.length + 5 := by
      simp [scrollSeparator]
    have hL : 0 < (text ++ scrollSeparator).length := by omega
    obtain ⟨res, hres, hlen, hget⟩ := scrollBuild_spec (text ++ scrollSeparator) off hL max 0
    refine ⟨res, ?_, hlen, ?_⟩
    · simp only [scrollText, hnotle, if_false]
      rw [← hres]
    · intro j hj
      have := hget j hj
      rw [this, hfull]
      have harg : off + 0 + j = off + j := by omega
      rw [harg]

/-- Witness for the amended C9 theorem at `scrollText("ABCDEFG", 5, 2)`. -/
theorem scrollText_window_spec_witness :
    ∃ res, GoPlaying.scrollText ['A', 'B', 'C', 'D', 'E', 'F', 'G'] 5 ((2 : Nat) : Int) = some res ∧
      res.length = 5 ∧
      ∀ j, j < 5 →
        res.get? j = (['A', 'B', 'C', 'D', 'E', 'F', 'G'] ++ scrollSeparator).get?
          ((2 + j) % (['A', 'B', 'C', 'D', 'E', 'F', 'G'].length + 5)) :=
  scrollText_window_spec.2 ['A', 'B', 'C', 'D', 'E', 'F', 'G'] 5 2 (by decide)

/-! ## Kitty graphics wire protocol (`encodeArtworkForKitty`, artwork file)

Go source (wire assembly, after PNG re-encode and base64):
```
const chunkSize = 4096
const imageID = 42
result.WriteString(fmt.Sprintf("\033_Ga=d,d=I,i=%d\033\\", imageID))
if len(encoded) <= chunkSize {
    result.WriteString(fmt.Sprintf("\033_Ga=T,f=100,t=d,i=%d,c=%d,C=1;%s\033\\", imageID, cfg.Artwork.WidthColumns, encoded))
} else {
    for i := 0; i < len(encoded); i += chunkSize {
        end := i + chunkSize
        if end > len(encoded) { end = len(encoded) }
        chunk := encoded[i:end]
        if i == 0 {
            result.WriteString(fmt.Sprintf("\033_Ga=T,f=100,t=d,i=%d,c=%d,C=1,m=1;%s\033\\", imageID, cfg.Artwork.WidthColumns, chunk))
        } else if end == len(encoded) {
            result.WriteString(fmt.Sprintf("\033_Gm=0;%s\033\\", chunk))
        } else {
            result.WriteString(fmt.Sprintf("\033_Gm=1;%s\033\\", chunk))
        }
    }
}
```
The wire string is modelled as a rune list (`List Char`); the base64 payload
is ASCII so runes and bytes coincide. -/

/-- Rune list of a string literal. -/
def strL (s : String) : List Char := s.data

/-- `chunkSize = 4096`. -/
def kittyChunkSize : Nat := 4096

/-- `imageID = 42`. -/
def kittyImageID : Nat := 42

/-- The delete-before-draw control sequence `ESC _G a=d,d=I,i=42 ESC \`. -/
def deleteSeq : List Char :=
  strL "\x1b_Ga=d,d=I,i=" ++ strL (toString kittyImageID) ++ strL "\x1b\\"

/-- Shared draw-command header `ESC _G a=T,f=100,t=d,i=42,c=<cols>,C=1`. -/
def drawHeader (cols : Nat) : List Char :=
  strL "\x1b_Ga=T,f=100,t=d,i=" ++ strL (toString kittyImageID) ++
    strL ",c=" ++ strL (toString cols) ++ strL ",C=1"

/-- Single-shot draw command (payload at most one chunk). -/
def singleShotForm (cols : Nat) (payload : List Char) : List Char :=
  drawHeader cols ++ strL ";" ++ payload ++ strL "\x1b\\"

/-- First chunk of a chunked transmission (`m=1` set in the header). -/
def firstChunkForm (cols : Nat) (chunk : List Char) : List Char :=
  drawHeader cols ++ strL ",m=1;" ++ chunk ++ strL "\x1b\\"

/-- Interior chunk (`m=1`, more data follows). -/
def middleChunkForm (chunk : List Char) : List Char :=
  strL "\x1b_Gm=1;" ++ chunk ++ strL "\x1b\\"

/-- Final chunk (`m=0`, no more data). -/
def lastChunkForm (chunk : List Char) : List Char :=
  strL "\x1b_Gm=0;" ++ chunk ++ strL "\x1b\\"

/-- Decomposition of the payload performed by the Go
`for i := 0; i < len(encoded); i += chunkSize` loop: successive slices of at
most `chunkSize` runes. -/
def chunksOf (l : List Char) : List (List Char) :=
  if l.length = 0 then []
  else if _h : l.length ≤ kittyChunkSize then [l]
  else l.take kittyChunkSize :: chunksOf (l.drop kittyChunkSize)
termination_by l.length
decreasing_by
  simp only [List.length_drop]
  simp only [kittyChunkSize] at *
  omega

/-- Renders the chunks after the first: interior chunks are `m=1`, the final
chunk is `m=0`, matching the `i == 0 / end == len / otherwise` cases of the
Go loop. -/
def renderTail : List (List Char) → List Char
  | [] => []
  | [c] => lastChunkForm c
  | c :: rest@(_ :: _) => middleChunkForm c ++ renderTail rest

/-- Renders a chunked transmission: the first chunk carries the draw header
with `m=1`, the rest follow `renderTail`. -/
def renderChunked (cols : Nat) : List (List Char) → List Char
  | [] => []
  | c :: rest => firstChunkForm cols c ++ renderTail rest

/-- The full wire string assembled by `encodeArtworkForKitty` from the base64
PNG payload: delete sequence, then either the single-shot draw or the
chunked draw. -/
def kittyAssemble (cols : Nat) (payload : List Char) : List Char :=
  deleteSeq ++
    (if payload.length ≤ kittyChunkSize then singleShotForm cols payload
     else renderChunked cols (chunksOf payload))

/-- An in-memory decoded image, as the Go `image.Image` interface presents
it to this code: bounds (normalized to origin) and a pixel accessor whose
channels are the 16-bit-range `r, g, b, a` values of `At(x,y).RGBA()`. -/
structure Img where
  width : Nat
  height : Nat
  pix : Nat → Nat → Nat × Nat × Nat × Nat

/-- The configuration snapshot (`Config` in config.go) restricted to the
fields the core reads.  `vinylFrames` is the `artwork.vinyl_frames` field:
it is read by model.go and view.go but the `Config` struct revision bundled
under src predates it, so that one field is modelled from the spec
(`artwork.vinyl_frames (int, >0)`). -/
structure Config where
  uiColor : String
  uiColorMode : String
  uiMaxWidth : Nat
  artworkEnabled : Bool
  artworkPadding : Nat
  artworkWidthPixels : Nat
  artworkWidthColumns : Nat
  vinylMode : Bool
  vinylRPM : ℚ
  vinylFrames : Nat
  maxLengthWithArt : Nat
  maxLengthNoArt : Nat
  uiRefreshMs : Nat
  dataFetchMs : Nat
deriving DecidableEq

/-- Shallow embedding of `encodeArtworkForKitty(img image.Image,
rotationAngle int)` from the artwork file.  The external library calls are
taken as parameters: `resizeF` models `resize.Resize(widthPixels, 0, img,
Lanczos3)` and `pngB64` models `png.Encode` followed by base64 (`none`
models the PNG encode error).  `rotationAngle` is accepted and ignored,
exactly as in the source, and a `none` image models the Go `nil` check. -/
def encodeArtworkForKitty (resizeF : Nat → Img → Img)
    (pngB64 : Img → Option (List Char)) (cfg : Config) (img : Option Img)
    (_rotationAngle : Int) : Except String (List Char) :=
  match img with
  | none => .error "nil image"
  | some im =>
    match pngB64 (resizeF cfg.artworkWidthPixels im) with
    | none => .error "failed to encode PNG"
    | some encoded => .ok (kittyAssemble cfg.artworkWidthColumns encoded)

theorem chunksOf_pos_small (l : List Char) (h0 : l.length ≠ 0)
    (h : l.length ≤ kittyChunkSize) : chunksOf l = [l] := by
  rw [chunksOf]
  simp [h0, h]

theorem chunksOf_large (l : List Char) (h : kittyChunkSize < l.length) :
    chunksOf l = l.take kittyChunkSize :: chunksOf (l.drop kittyChunkSize) := by
  rw [chunksOf]
  have h0 : l.length ≠ 0 := by
    simp only [kittyChunkSize] at h
    omega
  simp [h0, not_le.mpr h]

theorem singleShot_ne_renderChunked (cols : Nat) (payload : List Char) :
    singleShotForm cols payload ≠ renderChunked cols (chunksOf payload) := by
  have hsemi : strL ";" = [';'] := rfl
  have hm : strL ",m=1;" = [',', 'm', '=', '1', ';'] := rfl
  by_cases h0 : payload.length = 0
  · have hpl : payload = [] := List.length_eq_zero.mp h0
    subst hpl
    rw [chunksOf]
    intro h
    simp only [List.length_nil, if_pos rfl] at h
    have h2 : singleShotForm cols [] = [] := h
    have hlen := congrArg List.length h2
    have l1 : (strL ";").length = 1 := rfl
    have l2 : (strL "\x1b\\").length = 2 := rfl
    simp only [singleShotForm, List.length_append, l1, l2, List.length_nil] at hlen
    omega
  · have hchunks : ∃ c rest, chunksOf payload = c :: rest := by
      by_cases hle : payload.length ≤ kittyChunkSize
      · exact ⟨payload, [], chunksOf_pos_small payload h0 hle⟩
      · exact ⟨_, _, chunksOf_large payload (not_le.mp hle)⟩
    obtain ⟨c, rest, hc⟩ := hchunks
    rw [hc]
    intro h
    simp only [renderChunked, singleShotForm, firstChunkForm, hsemi, hm,
      List.append_assoc] at h
    have h2 := List.append_cancel_left h
    simp at h2

/-- C1: the wire string assembled by `encodeArtworkForKitty` begins with the
delete sequence for fixed image id 42, is non-empty, and is followed by
exactly one of the two draw forms: the single-shot placement when the base64
payload is at most 4096 runes (including exactly 4096), and the chunked form
otherwise; a 4097-rune payload gives exactly 2 chunks of at most 4096 runes,
the first carrying `m=1` and the final one `m=0`. -/
theorem kitty_wire_chunk_boundary : ∀ (cols : Nat) (payload : List Char),
    kittyAssemble cols payload ≠ [] ∧
    (∃ body, kittyAssemble cols payload = deleteSeq ++ body) ∧
    singleShotForm cols payload ≠ renderChunked cols (chunksOf payload) ∧
    (payload.length ≤ 4096 →
      kittyAssemble cols payload = deleteSeq ++ singleShotForm cols payload) ∧
    (4096 < payload.length →
      kittyAssemble cols payload =
        deleteSeq ++ renderChunked cols (chunksOf payload)) ∧
    (payload.length = 4097 →
      chunksOf payload = [payload.take 4096, payload.drop 4096] ∧
      (payload.take 4096).length = 4096 ∧
      (payload.drop 4096).length = 1 ∧
      kittyAssemble cols payload =
        deleteSeq ++ (firstChunkForm cols (payload.take 4096) ++
          lastChunkForm (payload.drop 4096))) ∧
    (∀ (resizeF : Nat → Img → Img) (pngB64 : Img → Option (List Char))
        (cfg : Config) (im : Img) (rot : Int),
      pngB64 (resizeF cfg.artworkWidthPixels im) = some payload →
      encodeArtworkForKitty resizeF pngB64 cfg (some im) rot =
        .ok (kittyAssemble cfg.artworkWidthColumns payload)) := by
  intro cols payload
  have hdel : deleteSeq ≠ [] := by decide
  refine ⟨?_, ⟨_, rfl⟩, singleShot_ne_renderChunked cols payload, ?_, ?_, ?_, ?_⟩
  · intro h
    exact hdel (List.append_eq_nil.mp h).1
  · intro h
    simp only [kittyAssemble, kittyChunkSize, if_pos h]
  · intro h
    simp only [kittyAssemble, kittyChunkSize, not_le.mpr h, if_false]
  · intro h
    have hchunks : chunksOf payload = [payload.take 4096, payload.drop 4096] := by
      rw [chunksOf_large payload (by simp [kittyChunkSize]; omega)]
      have hdroplen : (payload.drop kittyChunkSize).length = 1 := by
        simp [kittyChunkSize, h]
      rw [chunksOf_pos_small _ (by omega) (by rw [hdroplen]; decide)]
      simp [kittyChunkSize]
    refine ⟨hchunks, by simp [h], by simp [h], ?_⟩
    rw [kittyAssemble]
    rw [if_neg (by simp [kittyChunkSize]; omega), hchunks]
    simp [renderChunked, renderTail]
  · intro resizeF pngB64 cfg im rot hpng
    simp [encodeArtworkForKitty, hpng]

/-- Witness for C1 at a concrete 4097-rune payload. -/
theorem kitty_wire_chunk_boundary_witness :
    chunksOf (List.replicate 4097 'A') =
      [(List.replicate 4097 'A').take 4096, (List.replicate 4097 'A').drop 4096] ∧
    ((List.replicate 4097 'A').take 4096).length = 4096 ∧
    ((List.replicate 4097 'A').drop 4096).length = 1 ∧
    kittyAssemble 14 (List.replicate 4097 'A') =
      deleteSeq ++ (firstChunkForm 14 ((List.replicate 4097 'A').take 4096) ++
        lastChunkForm ((List.replicate 4097 'A').drop 4096)) :=
  (kitty_wire_chunk_boundary 14 (List.replicate 4097 'A')).2.2.2.2.2.1
    (by rw [List.length_replicate])

/-! ## The Bubble Tea model state (model.go)

`model` is embedded as `MState`, restricted to the fields read or written
by the transitions under verification.  Times and float64 quantities are
`ℚ`; `duration` is the Go `int64`. -/

structure MState where
  title : String
  artist : String
  album : String
  status : String
  totalTime : String
  color : String
  lastError : Option String
  lastPosition : ℚ
  lastPositionTime : ℚ
  duration : Int
  isPlaying : Bool
  artworkEncoded : String
  supportsKitty : Bool
  lastTrackID : String
  rawArtworkData : List Nat
  vinylRotation : Nat
  vinylFrameCache : List String
  vinylCacheTrackID : String
  vinylAccumulator : ℚ
  vinylCachedFrames : Nat
  scrollOffset : Nat
  scrollPause : Nat
  scrollTick : Nat
deriving DecidableEq

/-! ## Position interpolation (`getCurrentPosition`, model.go; `View`, view.go)

Go source:
```
func (m model) getCurrentPosition() float64 {
    if !m.isPlaying { return m.lastPosition }
    elapsed := time.Since(m.lastPositionTime).Seconds()
    currentPos := m.lastPosition + elapsed
    if m.duration > 0 && currentPos > float64(m.duration) {
        currentPos = float64(m.duration)
    }
    return currentPos
}
```
`time.Since(m.lastPositionTime)` is modelled by passing the wall-clock
query time `now` explicitly. -/

def getCurrentPosition (m : MState) (now : ℚ) : ℚ :=
  if !m.isPlaying then m.lastPosition
  else
    let elapsed := now - m.lastPositionTime
    let currentPos := m.lastPosition + elapsed
    if 0 < m.duration ∧ (m.duration : ℚ) < currentPos then (m.duration : ℚ)
    else currentPos

/-- The progress fraction computed at the top of `View`:
`if m.duration > 0 { progress = currentPos / float64(m.duration) }`. -/
def progressFraction (m : MState) (now : ℚ) : ℚ :=
  if 0 < m.duration then getCurrentPosition m now / (m.duration : ℚ) else 0

/-- C8: the interpolated position is frozen while not playing (queries at any
two times, hence 2 seconds apart, coincide); while playing it is the last
fetched position plus elapsed wall-clock time since the fetch, clamped to
the duration; and the progress fraction is position/duration, so position
75 s of duration 200 s is exactly 0.375. -/
theorem position_interpolation :
    (∀ (m : MState) (t1 t2 : ℚ), m.isPlaying = false →
      getCurrentPosition m t1 = getCurrentPosition m t2) ∧
    (∀ (m : MState) (now : ℚ), m.isPlaying = true → 0 < m.duration →
      getCurrentPosition m now =
        min (m.lastPosition + (now - m.lastPositionTime)) (m.duration : ℚ)) ∧
    (∀ (m : MState) (now : ℚ), m.isPlaying = false → m.lastPosition = 75 →
      m.duration = 200 → progressFraction m now = 0.375) := by
  refine ⟨?_, ?_, ?_⟩
  · intro m t1 t2 h
    simp [getCurrentPosition, h]
  · intro m now h hd
    simp only [getCurrentPosition, h, Bool.not_true, Bool.false_eq_true, if_false]
    rcases le_or_lt (m.lastPosition + (now - m.lastPositionTime)) (m.duration : ℚ) with hle | hlt
    · rw [if_neg (by push_neg; intro _; exact hle), min_eq_left hle]
    · rw [if_pos ⟨hd, hlt⟩, min_eq_right hlt.le]
  · intro m now h h75 h200
    simp [progressFraction, getCurrentPosition, h, h75, h200]
    norm_num

/-- Witness for C8 at a concrete paused state: position 75 s, duration 200 s,
queries 2 seconds apart. -/
theorem position_interpolation_witness :
    (getCurrentPosition
      { title := "t", artist := "a", album := "l", status := "Paused",
        totalTime := "03:20", color := "#ff0000", lastError := none,
        lastPosition := 75, lastPositionTime := 0, duration := 200,
        isPlaying := false, artworkEncoded := "", supportsKitty := true,
        lastTrackID := "t|a", rawArtworkData := [], vinylRotation := 0,
        vinylFrameCache := [], vinylCacheTrackID := "", vinylAccumulator := 0,
        vinylCachedFrames := 0, scrollOffset := 0, scrollPause := 0,
        scrollTick := 0 } 10 =
    getCurrentPosition
      { title := "t", artist := "a", album := "l", status := "Paused",
        totalTime := "03:20", color := "#ff0000", lastError := none,
        lastPosition := 75, lastPositionTime := 0, duration := 200,
        isPlaying := false, artworkEncoded := "", supportsKitty := true,
        lastTrackID := "t|a", rawArtworkData := [], vinylRotation := 0,
        vinylFrameCache := [], vinylCacheTrackID := "", vinylAccumulator := 0,
        vinylCachedFrames := 0, scrollOffset := 0, scrollPause := 0,
        scrollTick := 0 } 12) ∧
    progressFraction
      { title := "t", artist := "a", album := "l", status := "Paused",
        totalTime := "03:20", color := "#ff0000", lastError := none,
        lastPosition := 75, lastPositionTime := 0, duration := 200,
        isPlaying := false, artworkEncoded := "", supportsKitty := true,
        lastTrackID := "t|a", rawArtworkData := [], vinylRotation := 0,
        vinylFrameCache := [], vinylCacheTrackID := "", vinylAccumulator := 0,
        vinylCachedFrames := 0, scrollOffset := 0, scrollPause := 0,
        scrollTick := 0 } 12 = 0.375 :=
  ⟨position_interpolation.1 _ 10 12 rfl,
   position_interpolation.2.2 _ 12 rfl rfl rfl⟩

/-! ## Vinyl frames result handling (`Update`, `case vinylFramesMsg`, model.go)

Go source:
```
case vinylFramesMsg:
    if msg.trackID == m.lastTrackID && len(msg.frames) > 0 {
        m.vinylFrameCache = msg.frames
        m.vinylCachedFrames = len(msg.frames)
        m.vinylRotation = 0
        m.vinylAccumulator = 0
        m.artworkEncoded = msg.frames[0]
    }
    return m, nil
```
-/

structure VinylFramesMsg where
  frames : List String
  trackID : String
deriving DecidableEq

def applyVinylFramesMsg (m : MState) (msg : VinylFramesMsg) : MState :=
  if msg.trackID = m.lastTrackID ∧ msg.frames ≠ [] then
    { m with vinylFrameCache := msg.frames,
             vinylCachedFrames := msg.frames.length,
             vinylRotation := 0,
             vinylAccumulator := 0,
             artworkEncoded := msg.frames.headD "" }
  else m

/-- C5: a vinyl-frames result carrying track identity `A` arriving while the
current track identity is `B ≠ A` is discarded: the resulting model state is
unchanged, so the frame cache, cached-frame count, rotation index,
accumulator and displayed artwork string all keep their prior values. -/
theorem stale_vinyl_frames_discarded :
    ∀ (m : MState) (msg : VinylFramesMsg), msg.trackID ≠ m.lastTrackID →
      applyVinylFramesMsg m msg = m ∧
      (applyVinylFramesMsg m msg).vinylFrameCache = m.vinylFrameCache ∧
      (applyVinylFramesMsg m msg).vinylCachedFrames = m.vinylCachedFrames ∧
      (applyVinylFramesMsg m msg).vinylRotation = m.vinylRotation ∧
      (applyVinylFramesMsg m msg).vinylAccumulator = m.vinylAccumulator ∧
      (applyVinylFramesMsg m msg).artworkEncoded = m.artworkEncoded := by
  intro m msg h
  have heq : applyVinylFramesMsg m msg = m := by
    simp only [applyVinylFramesMsg]
    rw [if_neg]
    intro hc
    exact h hc.1
  exact ⟨heq, by rw [heq], by rw [heq], by rw [heq], by rw [heq], by rw [heq]⟩

/-- Witness for C5: a stale result for track `"B|b"` while the current track
is `"A|a"` leaves a concrete state untouched. -/
theorem stale_vinyl_frames_discarded_witness :
    applyVinylFramesMsg
      { title := "A", artist := "a", album := "x", status := "Playing",
        totalTime := "01:00", color := "2", lastError := none,
        lastPosition := 1, lastPositionTime := 2, duration := 60,
        isPlaying := true, artworkEncoded := "old", supportsKitty := true,
        lastTrackID := "A|a", rawArtworkData := [7], vinylRotation := 3,
        vinylFrameCache := ["f0", "f1"], vinylCacheTrackID := "A|a",
        vinylAccumulator := 1/2, vinylCachedFrames := 2, scrollOffset := 4,
        scrollPause := 5, scrollTick := 6 }
      { frames := ["g0", "g1", "g2"], trackID := "B|b" } =
      { title := "A", artist := "a", album := "x", status := "Playing",
        totalTime := "01:00", color := "2", lastError := none,
        lastPosition := 1, lastPositionTime := 2, duration := 60,
        isPlaying := true, artworkEncoded := "old", supportsKitty := true,
        lastTrackID := "A|a", rawArtworkData := [7], vinylRotation := 3,
        vinylFrameCache := ["f0", "f1"], vinylCacheTrackID := "A|a",
        vinylAccumulator := 1/2, vinylCachedFrames := 2, scrollOffset := 4,
        scrollPause := 5, scrollTick := 6 } :=
  (stale_vinyl_frames_discarded _ _ (by decide)).1

/-! ## Vinyl rotation on a UI tick (`updateVinylRotation` and the `tickMsg`
case of `Update`, model.go)

Go source:
```
func (m *model) updateVinylRotation(cfg Config) {
    frameCount := cfg.Artwork.VinylFrames
    if !cfg.Artwork.VinylMode || !m.isPlaying || len(m.vinylFrameCache) != frameCount {
        return
    }
    framesPerSecond := cfg.Artwork.VinylRPM / 60.0 * float64(frameCount)
    tickDuration := 0.1 // 100ms when playing
    framesPerTick := framesPerSecond * tickDuration
    m.vinylAccumulator += framesPerTick
    for m.vinylAccumulator >= 1.0 {
        m.vinylRotation = (m.vinylRotation + 1) % frameCount
        m.vinylAccumulator -= 1.0
        m.artworkEncoded = m.vinylFrameCache[m.vinylRotation]
    }
}
```
A Go `% 0` (integer division by zero) and an out-of-range slice index both
panic; the embedding models either panic as `none`. -/

def scrollInterval : Nat := 3
def scrollPauseTicks : Nat := 30
def scrollSeparatorLen : Nat := 5

/-- The `for m.vinylAccumulator >= 1.0` drain loop. -/
def vinylDrain (frameCount : Nat) (cache : List String) (rot : Nat) (acc : ℚ)
    (art : String) : Option (Nat × ℚ × String) :=
  if 1 ≤ acc then
    if frameCount = 0 then none
    else
      let rot2 := (rot + 1) % frameCount
      match cache.get? rot2 with
      | none => none
      | some s => vinylDrain frameCount cache rot2 (acc - 1) s
  else some (rot, acc, art)
termination_by (⌈acc⌉).toNat
decreasing_by
  rename_i hacc _
  have h1 : (1 : ℤ) ≤ ⌈acc⌉ := by
    have := Int.ceil_le_ceil (α := ℚ) hacc
    simpa using this
  have h2 : ⌈acc - 1⌉ = ⌈acc⌉ - 1 := by
    rw [show acc - 1 = acc - ((1 : ℤ) : ℚ) by push_cast; ring, Int.ceil_sub_int]
  omega

def updateVinylRotation (cfg : Config) (m : MState) : Option MState :=
  let frameCount := cfg.vinylFrames
  if !cfg.vinylMode || !m.isPlaying || m.vinylFrameCache.length ≠ frameCount then
    some m
  else
    let framesPerSecond := cfg.vinylRPM / 60 * (frameCount : ℚ)
    let tickDuration : ℚ := 1/10
    let framesPerTick := framesPerSecond * tickDuration
    match vinylDrain frameCount m.vinylFrameCache m.vinylRotation
        (m.vinylAccumulator + framesPerTick) m.artworkEncoded with
    | none => none
    | some (rot, acc2, art) =>
      some { m with vinylRotation := rot, vinylAccumulator := acc2,
                    artworkEncoded := art }

/-- The text-scrolling tail of the `tickMsg` case (after the vinyl update). -/
def scrollAdvance (cfg : Config) (m2 : MState) : MState :=
  let maxLen := if !m2.supportsKitty || !cfg.artworkEnabled then
      cfg.maxLengthNoArt else cfg.maxLengthWithArt
  let longestLen := max m2.title.length (max m2.artist.length m2.album.length)
  if maxLen < longestLen then
    if 0 < m2.scrollPause then { m2 with scrollPause := m2.scrollPause - 1 }
    else if m2.scrollTick % scrollInterval = 0 then
      if longestLen + scrollSeparatorLen ≤ m2.scrollOffset + 1 then
        { m2 with scrollOffset := 0, scrollPause := scrollPauseTicks }
      else { m2 with scrollOffset := m2.scrollOffset + 1 }
    else m2
  else { m2 with scrollOffset := 0, scrollPause := 0 }

/-- The `tickMsg` case of `Update`: bump the tick counter, update the vinyl
rotation, then advance the text scroll. -/
def applyTickMsg (cfg : Config) (m : MState) : Option MState :=
  let m1 := { m with scrollTick := m.scrollTick + 1 }
  match updateVinylRotation cfg m1 with
  | none => none
  | some m2 => some (scrollAdvance cfg m2)

/-- Iterated ticks of the event loop (rotation sub-update plus scroll). -/
def iterTicks (cfg : Config) : Nat → MState → Option MState
  | 0, m => some m
  | t + 1, m =>
    match applyTickMsg cfg m with
    | none => none
    | some m2 => iterTicks cfg t m2

/-- Real-mod on rationals, `a mod b = a - b*⌊a/b⌋`, used to state the
claimed frame-index formula `floor((R/60·N·T) mod N)`. -/
def ratMod (a b : ℚ) : ℚ := a - b * ⌊a / b⌋

theorem vinylDrain_spec (fc : Nat) (cache : List String) (hfc : 0 < fc)
    (hlen : cache.length = fc) :
    ∀ (n : Nat) (rot : Nat) (acc : ℚ) (art : String), rot < fc → 0 ≤ acc →
      (⌊acc⌋).toNat = n →
      ∃ art2, vinylDrain fc cache rot acc art =
        some ((rot + n) % fc, acc - (n : ℚ), art2) := by
  intro n
  induction n with
  | zero =>
    intro rot acc art hrot hacc hfl
    have hfl0 : ⌊acc⌋ = 0 := by
      have := Int.floor_nonneg.mpr hacc
      omega
    have hlt : acc < 1 := by
      have h1 := Int.lt_floor_add_one acc
      rw [hfl0] at h1
      simpa using h1
    rw [vinylDrain, if_neg (not_le.mpr hlt)]
    refine ⟨art, ?_⟩
    rw [Nat.add_zero, Nat.mod_eq_of_lt hrot]
    norm_num
  | succ k ih =>
    intro rot acc art hrot hacc hfl
    have hflk : ⌊acc⌋ = (k : Int) + 1 := by
      have := Int.floor_nonneg.mpr hacc
      omega
    have hge : 1 ≤ acc := by
      have h1 : ((⌊acc⌋ : ℚ)) ≤ acc := Int.floor_le acc
      rw [hflk] at h1
      have hk : (0 : ℚ) ≤ (k : ℚ) := by positivity
      push_cast at h1
      linarith
    have hrot2 : (rot + 1) % fc < fc := Nat.mod_lt _ hfc
    have hget : cache.get? ((rot + 1) % fc) =
        some (cache.get ⟨(rot + 1) % fc, by rw [hlen]; exact hrot2⟩) :=
      List.get?_eq_get _
    have hacc1 : (0 : ℚ) ≤ acc - 1 := by linarith
    have hfl1 : (⌊acc - 1⌋).toNat = k := by
      rw [show acc - 1 = acc - ((1 : Int) : ℚ) by push_cast; ring,
        Int.floor_sub_int, hflk]
      omega
    obtain ⟨art2, hrec⟩ := ih ((rot + 1) % fc) (acc - 1) _ hrot2 hacc1 hfl1
    refine ⟨art2, ?_⟩
    rw [vinylDrain, if_pos hge, if_neg (by omega : ¬ fc = 0)]
    simp only [hget]
    rw [hrec]
    have h1 : ((rot + 1) % fc + k) % fc = (rot + (k + 1)) % fc := by
      rw [Nat.mod_add_mod]
      congr 1
      omega
    have h2 : acc - 1 - (k : ℚ) = acc - ((k : ℚ) + 1) := by ring
    rw [h1, h2]
    norm_num

theorem vinylDrain_isSome (fc : Nat) (cache : List String) (hfc : 0 < fc)
    (hlen : cache.length = fc) :
    ∀ (n : Nat) (rot : Nat) (acc : ℚ) (art : String), (⌈acc⌉).toNat ≤ n →
      (vinylDrain fc cache rot acc art).isSome := by
  intro n
  induction n with
  | zero =>
    intro rot acc art hn
    have hlt : acc < 1 := by
      have h0 : ⌈acc⌉ ≤ 0 := by omega
      have := Int.le_ceil acc
      have h1 : (0 : ℚ) ≥ (⌈acc⌉ : ℚ) := by exact_mod_cast h0
      linarith
    rw [vinylDrain, if_neg (not_le.mpr hlt)]
    rfl
  | succ k ih =>
    intro rot acc art hn
    by_cases hge : 1 ≤ acc
    · have hrot2 : (rot + 1) % fc < fc := Nat.mod_lt _ hfc
      have hget : cache.get? ((rot + 1) % fc) =
          some (cache.get ⟨(rot + 1) % fc, by rw [hlen]; exact hrot2⟩) :=
        List.get?_eq_get _
      rw [vinylDrain, if_pos hge, if_neg (by omega : ¬ fc = 0)]
      simp only [hget]
      apply ih
      have hceil : ⌈acc - 1⌉ = ⌈acc⌉ - 1 := by
        rw [show acc - 1 = acc - ((1 : Int) : ℚ) by push_cast; ring,
          Int.ceil_sub_int]
      have hc1 : (1 : Int) ≤ ⌈acc⌉ := by
        have := Int.ceil_le_ceil (α := ℚ) hge
        simpa using this
      omega
    · rw [vinylDrain, if_neg hge]
      rfl

theorem updateVinylRotation_spec (cfg : Config) (m : MState)
    (hmode : cfg.vinylMode = true) (hplay : m.isPlaying = true)
    (hlen : m.vinylFrameCache.length = cfg.vinylFrames)
    (hfc : 0 < cfg.vinylFrames) (hrot : m.vinylRotation < cfg.vinylFrames)
    (hacc : 0 ≤ m.vinylAccumulator +
      cfg.vinylRPM / 60 * (cfg.vinylFrames : ℚ) * (1 / 10)) :
    ∃ m2, updateVinylRotation cfg m = some m2 ∧
      m2.vinylRotation = (m.vinylRotation +
        (⌊m.vinylAccumulator + cfg.vinylRPM / 60 * (cfg.vinylFrames : ℚ) * (1 / 10)⌋).toNat) %
          cfg.vinylFrames ∧
      m2.vinylAccumulator = (m.vinylAccumulator +
        cfg.vinylRPM / 60 * (cfg.vinylFrames : ℚ) * (1 / 10)) -
        ((⌊m.vinylAccumulator + cfg.vinylRPM / 60 * (cfg.vinylFrames : ℚ) * (1 / 10)⌋).toNat : ℚ) ∧
      m2.vinylFrameCache = m.vinylFrameCache ∧
      m2.isPlaying = m.isPlaying ∧
      m2.supportsKitty = m.supportsKitty ∧
      m2.title = m.title ∧ m2.artist = m.artist ∧ m2.album = m.album := by
  obtain ⟨art2, hdrain⟩ := vinylDrain_spec cfg.vinylFrames m.vinylFrameCache hfc hlen
    ((⌊m.vinylAccumulator + cfg.vinylRPM / 60 * (cfg.vinylFrames : ℚ) * (1 / 10)⌋).toNat)
    m.vinylRotation
    (m.vinylAccumulator + cfg.vinylRPM / 60 * (cfg.vinylFrames : ℚ) * (1 / 10))
    m.artworkEncoded hrot hacc rfl
  refine ⟨{ m with
      vinylRotation := (m.vinylRotation +
        (⌊m.vinylAccumulator + cfg.vinylRPM / 60 * (cfg.vinylFrames : ℚ) * (1 / 10)⌋).toNat) %
          cfg.vinylFrames,
      vinylAccumulator := (m.vinylAccumulator +
        cfg.vinylRPM / 60 * (cfg.vinylFrames : ℚ) * (1 / 10)) -
        ((⌊m.vinylAccumulator + cfg.vinylRPM / 60 * (cfg.vinylFrames : ℚ) * (1 / 10)⌋).toNat : ℚ),
      artworkEncoded := art2 }, ?_, by simp, by simp, by simp, by simp, by simp,
    by simp, by simp, by simp⟩
  rw [updateVinylRotation]
  rw [if_neg (by simp [hmode, hplay, hlen])]
  simp only []
  rw [hdrain]

theorem updateVinylRotation_isSome (cfg : Config) (m : MState)
    (hacc : m.vinylAccumulator < 1) :
    (updateVinylRotation cfg m).isSome := by
  rw [updateVinylRotation]
  split
  · rfl
  · rename_i hguard
    have hlen : m.vinylFrameCache.length = cfg.vinylFrames := by
      by_contra hne
      exact hguard (by simp [hne])
    by_cases hfc : cfg.vinylFrames = 0
    · have hzero : cfg.vinylRPM / 60 * (cfg.vinylFrames : ℚ) * (1 / 10) = 0 := by
        rw [hfc]
        norm_num
      simp only [hzero, add_zero]
      rw [vinylDrain, if_neg (not_le.mpr hacc)]
      rfl
    · have hsome := vinylDrain_isSome cfg.vinylFrames m.vinylFrameCache
        (by omega) hlen
        ((⌈m.vinylAccumulator + cfg.vinylRPM / 60 * (cfg.vinylFrames : ℚ) * (1 / 10)⌉).toNat)
        m.vinylRotation
        (m.vinylAccumulator + cfg.vinylRPM / 60 * (cfg.vinylFrames : ℚ) * (1 / 10))
        m.artworkEncoded (le_refl _)
      simp only []
      obtain ⟨v, hv⟩ := Option.isSome_iff_exists.mp hsome
      rw [hv]
      rfl

theorem scrollAdvance_preserves (cfg : Config) (m2 : MState) :
    (scrollAdvance cfg m2).vinylRotation = m2.vinylRotation ∧
    (scrollAdvance cfg m2).vinylAccumulator = m2.vinylAccumulator ∧
    (scrollAdvance cfg m2).vinylFrameCache = m2.vinylFrameCache ∧
    (scrollAdvance cfg m2).isPlaying = m2.isPlaying ∧
    (scrollAdvance cfg m2).vinylCachedFrames = m2.vinylCachedFrames := by
  rw [scrollAdvance]
  split_ifs <;> simp

theorem natCast_toNat_eq (z : Int) (hz : 0 ≤ z) : ((z.toNat : Nat) : ℚ) = (z : ℚ) := by
  rw [← Int.cast_natCast (R := ℚ), Int.toNat_of_nonneg hz]

theorem iterTicks_general (cfg : Config) (hmode : cfg.vinylMode = true)
    (hfc : 0 < cfg.vinylFrames) (hrpm : 0 ≤ cfg.vinylRPM) :
    ∀ (t : Nat) (m : MState), m.isPlaying = true →
      m.vinylFrameCache.length = cfg.vinylFrames →
      m.vinylRotation < cfg.vinylFrames →
      0 ≤ m.vinylAccumulator → m.vinylAccumulator < 1 →
      ∃ m2, iterTicks cfg t m = some m2 ∧
        m2.vinylRotation = (m.vinylRotation +
          (⌊m.vinylAccumulator +
            (t : ℚ) * (cfg.vinylRPM / 60 * (cfg.vinylFrames : ℚ) * (1 / 10))⌋).toNat) %
            cfg.vinylFrames ∧
        m2.vinylAccumulator = m.vinylAccumulator +
          (t : ℚ) * (cfg.vinylRPM / 60 * (cfg.vinylFrames : ℚ) * (1 / 10)) -
          ((⌊m.vinylAccumulator +
            (t : ℚ) * (cfg.vinylRPM / 60 * (cfg.vinylFrames : ℚ) * (1 / 10))⌋).toNat : ℚ) ∧
        m2.vinylFrameCache = m.vinylFrameCache ∧ m2.isPlaying = true := by
  have hS : 0 ≤ cfg.vinylRPM / 60 * (cfg.vinylFrames : ℚ) * (1 / 10) :=
    mul_nonneg (mul_nonneg (div_nonneg hrpm (by norm_num)) (Nat.cast_nonneg _))
      (by norm_num)
  intro t
  induction t with
  | zero =>
    intro m hplay hlen hrot hacc0 hacc1
    have hfl : ⌊m.vinylAccumulator⌋ = 0 := Int.floor_eq_zero_iff.mpr ⟨hacc0, hacc1⟩
    refine ⟨m, rfl, ?_, ?_, rfl, hplay⟩
    · simp only [Nat.cast_zero, zero_mul, add_zero, hfl, Int.toNat_zero]
      simp [Nat.mod_eq_of_lt hrot]
    · simp only [Nat.cast_zero, zero_mul, add_zero, hfl, Int.toNat_zero]
      simp
  | succ t ih =>
    intro m hplay hlen hrot hacc0 hacc1
    obtain ⟨m2, hup, hrot2, hacc2, hcache2, hplay2, -, -, -, -⟩ :=
      updateVinylRotation_spec cfg { m with scrollTick := m.scrollTick + 1 }
        hmode hplay hlen hfc hrot (by simpa using add_nonneg hacc0 hS)
    simp only [] at hrot2 hacc2 hcache2 hplay2
    set S := cfg.vinylRPM / 60 * (cfg.vinylFrames : ℚ) * (1 / 10) with hSdef
    have hA0 : (0 : ℚ) ≤ m.vinylAccumulator + S := add_nonneg hacc0 hS
    have hfa0 : (0 : Int) ≤ ⌊m.vinylAccumulator + S⌋ := Int.floor_nonneg.mpr hA0
    obtain ⟨h3rot, h3acc, h3cache, h3play, -⟩ := scrollAdvance_preserves cfg m2
    have hacc2' : m2.vinylAccumulator =
        m.vinylAccumulator + S - ((⌊m.vinylAccumulator + S⌋ : ℤ) : ℚ) := by
      rw [hacc2, natCast_toNat_eq _ hfa0]
    have hfr0 : 0 ≤ m2.vinylAccumulator := by
      rw [hacc2']
      have := Int.floor_le (m.vinylAccumulator + S)
      linarith
    have hfr1 : m2.vinylAccumulator < 1 := by
      rw [hacc2']
      have := Int.lt_floor_add_one (m.vinylAccumulator + S)
      linarith
    obtain ⟨m4, hiter, hrot4, hacc4, hcache4, hplay4⟩ :=
      ih (scrollAdvance cfg m2) (by rw [h3play]; exact hplay2.trans hplay)
        (by rw [h3cache, hcache2]; exact hlen)
        (by rw [h3rot, hrot2]; exact Nat.mod_lt _ hfc)
        (by rw [h3acc]; exact hfr0) (by rw [h3acc]; exact hfr1)
    have hble : ⌊m.vinylAccumulator + S⌋ ≤
        ⌊m.vinylAccumulator + ((t : ℚ) + 1) * S⌋ := by
      apply Int.floor_le_floor
      nlinarith
    have hb0 : (0 : Int) ≤ ⌊m.vinylAccumulator + ((t : ℚ) + 1) * S⌋ := by omega
    have hshift : ⌊m2.vinylAccumulator + (t : ℚ) * S⌋ =
        ⌊m.vinylAccumulator + ((t : ℚ) + 1) * S⌋ - ⌊m.vinylAccumulator + S⌋ := by
      rw [hacc2', show m.vinylAccumulator + S -
          ((⌊m.vinylAccumulator + S⌋ : ℤ) : ℚ) + (t : ℚ) * S =
          m.vinylAccumulator + ((t : ℚ) + 1) * S -
          ((⌊m.vinylAccumulator + S⌋ : ℤ) : ℚ) by ring]
      rw [Int.floor_sub_int]
    refine ⟨m4, ?_, ?_, ?_, ?_, hplay4⟩
    · rw [iterTicks]
      simp only [applyTickMsg]
      rw [hup]
      exact hiter
    · rw [hrot4, h3rot, h3acc, hrot2, hshift]
      push_cast
      rw [Nat.mod_add_mod]
      congr 1
      omega
    · rw [hacc4, h3acc]
      have hc0 : (0 : Int) ≤ ⌊m2.vinylAccumulator + (t : ℚ) * S⌋ :=
        Int.floor_nonneg.mpr (add_nonneg hfr0 (mul_nonneg (Nat.cast_nonneg t) hS))
      rw [natCast_toNat_eq _ hc0, hshift, hacc2']
      rw [Nat.cast_add, Nat.cast_one, natCast_toNat_eq _ hb0]
      push_cast
      ring
    · rw [hcache4, h3cache, hcache2]

theorem toNat_floor_ratMod (x : ℚ) (n : ℕ) (hx : 0 ≤ x) (hn : 0 < n) :
    (⌊ratMod x (n : ℚ)⌋).toNat = (⌊x⌋).toNat % n := by
  have hnQ : (0 : ℚ) < (n : ℚ) := by exact_mod_cast hn
  have h0 : 0 ≤ ratMod x (n : ℚ) := by
    rw [ratMod, mul_comm]
    exact Int.sub_floor_div_mul_nonneg x hnQ
  have h1 : ratMod x (n : ℚ) < (n : ℚ) := by
    rw [ratMod, mul_comm]
    exact Int.sub_floor_div_mul_lt x hnQ
  have hfl : ⌊ratMod x (n : ℚ)⌋ = ⌊x⌋ - (n : ℤ) * ⌊x / (n : ℚ)⌋ := by
    rw [ratMod, show (n : ℚ) * (⌊x / (n : ℚ)⌋ : ℚ) =
        (((n : ℤ) * ⌊x / (n : ℚ)⌋ : ℤ) : ℚ) by push_cast; ring, Int.floor_sub_int]
  have hr0 : 0 ≤ ⌊ratMod x (n : ℚ)⌋ := Int.floor_nonneg.mpr h0
  have hrn : ⌊ratMod x (n : ℚ)⌋ < (n : ℤ) := Int.floor_lt.mpr (by exact_mod_cast h1)
  have hx0 : 0 ≤ ⌊x⌋ := Int.floor_nonneg.mpr hx
  have hmod : (⌊x⌋ : ℤ) % (n : ℤ) = ⌊ratMod x (n : ℚ)⌋ := by
    rw [show (⌊x⌋ : ℤ) = ⌊ratMod x (n : ℚ)⌋ + (n : ℤ) * ⌊x / (n : ℚ)⌋ by omega,
      Int.add_mul_emod_self_left _ _ _, Int.emod_eq_of_lt hr0 hrn]
  rw [← hmod, show (⌊x⌋ : ℤ) = ((⌊x⌋.toNat : ℕ) : ℤ) by omega, ← Int.natCast_mod,
    Int.toNat_natCast]
  congr 1

/-- C4 (amended): at the standard playing-rate tick of d = 0.1 s — the tick
length that `updateVinylRotation` hard-codes in its accumulator — after `t`
continuous ticks (T = t/10 seconds) in the playing state with a complete
N-frame cache, the displayed frame index is exactly
`floor((R/60·N·T) mod N)`. -/
theorem vinyl_rotation_frame_formula (cfg : Config) (m0 : MState)
    (hmode : cfg.vinylMode = true) (hplay : m0.isPlaying = true)
    (hlen : m0.vinylFrameCache.length = cfg.vinylFrames)
    (hfc : 0 < cfg.vinylFrames) (hrpm : 0 ≤ cfg.vinylRPM)
    (hrot0 : m0.vinylRotation = 0) (hacc0 : m0.vinylAccumulator = 0) :
    ∀ t : Nat, ∃ m, iterTicks cfg t m0 = some m ∧
      m.vinylRotation =
        (⌊ratMod (cfg.vinylRPM / 60 * (cfg.vinylFrames : ℚ) * ((t : ℚ) / 10))
          (cfg.vinylFrames : ℚ)⌋).toNat := by
  intro t
  have hx : (0 : ℚ) ≤ (t : ℚ) * (cfg.vinylRPM / 60 * (cfg.vinylFrames : ℚ) * (1 / 10)) :=
    mul_nonneg (Nat.cast_nonneg _)
      (mul_nonneg (mul_nonneg (div_nonneg hrpm (by norm_num)) (Nat.cast_nonneg _))
        (by norm_num))
  obtain ⟨m, hiter, hrotm, -, -, -⟩ :=
    iterTicks_general cfg hmode hfc hrpm t m0 hplay hlen
      (by rw [hrot0]; exact hfc) (by rw [hacc0]) (by rw [hacc0]; norm_num)
  refine ⟨m, hiter, ?_⟩
  rw [hrotm, hrot0, hacc0, zero_add, zero_add,
    show cfg.vinylRPM / 60 * (cfg.vinylFrames : ℚ) * ((t : ℚ) / 10) =
      (t : ℚ) * (cfg.vinylRPM / 60 * (cfg.vinylFrames : ℚ) * (1 / 10)) by ring,
    toNat_floor_ratMod _ _ hx hfc]

/-- Concrete configuration for the C4 scenario: R = 60 RPM, N = 4 frames,
`ui_refresh_ms = 200` so the playing tick length is 0.2 s. -/
def cfgC4 : Config :=
  { uiColor := "2", uiColorMode := "auto", uiMaxWidth := 45,
    artworkEnabled := true, artworkPadding := 16, artworkWidthPixels := 300,
    artworkWidthColumns := 14, vinylMode := true, vinylRPM := 60,
    vinylFrames := 4, maxLengthWithArt := 22, maxLengthNoArt := 36,
    uiRefreshMs := 200, dataFetchMs := 1000 }

/-- Concrete playing state with a complete 4-frame cache for the C4 scenario. -/
def mC4 : MState :=
  { title := "T", artist := "A", album := "L", status := "Playing",
    totalTime := "01:00", color := "2", lastError := none, lastPosition := 0,
    lastPositionTime := 0, duration := 60, isPlaying := true,
    artworkEncoded := "f0", supportsKitty := true, lastTrackID := "T|A",
    rawArtworkData := [1], vinylRotation := 0,
    vinylFrameCache := ["f0", "f1", "f2", "f3"], vinylCacheTrackID := "T|A",
    vinylAccumulator := 0, vinylCachedFrames := 4, scrollOffset := 0,
    scrollPause := 0, scrollTick := 0 }

/-- C4: the claim quantifies over the tick length d, but the accumulator adds
`RPM/60·N·0.1` per tick regardless of the configured tick length.  With
`ui_refresh_ms = 200` (tick length d = 0.2 s), R = 60 RPM and N = 4, after
5 ticks — T = 1 second of continuous playing ticks — the displayed index
is 2, whereas `floor((R/60·N·T) mod N) = 0`; they differ by 2 frames, also
cyclically, which is more than one frame of rounding error. -/
theorem vinyl_rotation_tick_length_counterexample :
    (iterTicks cfgC4 5 mC4).map MState.vinylRotation = some 2 ∧
    (⌊ratMod ((60 : ℚ) / 60 * 4 * 1) 4⌋).toNat = 0 ∧
    ¬((2 - 0 : Int).natAbs ≤ 1 ∨ ((4 : Int) - (2 - 0)).natAbs ≤ 1) := by
  refine ⟨?_, ?_, by decide⟩
  · obtain ⟨m, hiter, hrotm, -, -, -⟩ :=
      iterTicks_general cfgC4 rfl (by norm_num [cfgC4]) (by norm_num [cfgC4]) 5 mC4
        rfl (by simp [mC4, cfgC4]) (by norm_num [mC4, cfgC4])
        (by norm_num [mC4]) (by norm_num [mC4])
    rw [hiter, Option.map_some']
    have : m.vinylRotation = 2 := by
      rw [hrotm]
      norm_num [mC4, cfgC4]
      decide
    rw [this]
  · rw [ratMod]
    norm_num

/-- Witness for the amended C4 theorem: same configuration but 5 ticks of the
standard 0.1 s playing tick (T = 0.5 s), giving frame index
`floor((60/60·4·0.5) mod 4) = 2` exactly. -/
theorem vinyl_rotation_frame_formula_witness :
    ∃ m, iterTicks cfgC4 5 mC4 = some m ∧
      m.vinylRotation =
        (⌊ratMod (cfgC4.vinylRPM / 60 * (cfgC4.vinylFrames : ℚ) * (((5 : Nat) : ℚ) / 10))
          (cfgC4.vinylFrames : ℚ)⌋).toNat :=
  vinyl_rotation_frame_formula cfgC4 mC4 rfl rfl (by simp [mC4, cfgC4])
    (by norm_num [cfgC4]) (by norm_num [cfgC4]) (by norm_num [mC4])
    (by norm_num [mC4]) 5

/-! ## Song-data results, config reloads, and the event-loop system (model.go)

`applySongDataMsg` embeds the `songDataMsg` case of `Update` (the
`time.Now()` written into `lastPositionTime` is passed as `now`);
`applyConfigReload` embeds the `configReloadMsg` case; both report the
`generateVinylFramesCmd` background commands they issue.  `Sys` couples the
model with the current configuration snapshot and the multiset of in-flight
frame-generation commands, and `Reach` is the transition relation over the
four message kinds.  A delivered vinyl-frames result must come from an
in-flight command: `generateVinylFramesCmd` builds `make([]string,
frameCount)` and fills entries, so the result structurally guarantees
exactly the frame count and track identity of its command. -/

/-- `formatTime`: `fmt.Sprintf("%02d:%02d", seconds/60, seconds%60)` with
Go truncated division. -/
def pad2 (n : Int) : String :=
  if 0 ≤ n ∧ n < 10 then "0" ++ toString n else toString n

def formatTime (seconds : Int) : String :=
  pad2 (seconds.tdiv 60) ++ ":" ++ pad2 (seconds.tmod 60)

/-- A `generateVinylFramesCmd(rawArtwork, trackID, frameCount)` request. -/
structure GenCmd where
  raw : List Nat
  trackID : String
  frameCount : Nat
deriving DecidableEq

structure SongDataMsg where
  title : String
  artist : String
  album : String
  status : String
  duration : Int
  position : ℚ
  artwork : String
  rawArtwork : List Nat
  color : String
  err : Option String
deriving DecidableEq

/-- The `songDataMsg` case of `Update` (model.go). -/
def applySongDataMsg (cfg : Config) (m : MState) (msg : SongDataMsg)
    (now : ℚ) : MState × Option GenCmd :=
  match msg.err with
  | some e =>
    ({ m with lastError := some e, artworkEncoded := "", lastTrackID := "" }, none)
  | none =>
    let trackID := msg.title ++ "|" ++ msg.artist
    let m1 := if trackID = m.lastTrackID then m else
      { m with scrollOffset := 0, scrollPause := scrollPauseTicks,
               scrollTick := 0, vinylFrameCache := [], vinylCacheTrackID := "" }
    let m2 := { m1 with
      title := msg.title, artist := msg.artist, album := msg.album,
      status := msg.status, totalTime := formatTime msg.duration,
      color := if cfg.uiColorMode = "auto" ∧ msg.color ≠ "" then msg.color
               else m1.color,
      lastPosition := msg.position, lastPositionTime := now,
      duration := msg.duration,
      isPlaying := msg.status.map Char.toLower == "playing",
      lastError := none }
    let m3 := if msg.artwork ≠ "" then
        { m2 with artworkEncoded := msg.artwork, lastTrackID := trackID }
      else m2
    if msg.rawArtwork ≠ [] then
      let m4 := { m3 with rawArtworkData := msg.rawArtwork }
      if cfg.vinylMode ∧ trackID ≠ m4.vinylCacheTrackID then
        ({ m4 with vinylCacheTrackID := trackID },
         some ⟨msg.rawArtwork, trackID, cfg.vinylFrames⟩)
      else (m4, none)
    else (m3, none)

/-- The tail of the `configReloadMsg` case after the two vinyl-cache
branches (the "vinyl mode was enabled" and artwork-enabled checks). -/
def configReloadRest (cfg : Config) (m1 : MState) : MState × List GenCmd :=
  if cfg.vinylMode = true ∧ m1.vinylFrameCache = [] ∧ m1.rawArtworkData ≠ [] ∧
      m1.lastTrackID ≠ "" then
    ({ m1 with vinylCacheTrackID := "" },
     [⟨m1.rawArtworkData, m1.lastTrackID, cfg.vinylFrames⟩])
  else if cfg.artworkEnabled = false ∧ m1.artworkEncoded ≠ "" then
    ({ m1 with artworkEncoded := "", lastTrackID := "" }, [])
  else if cfg.artworkEnabled = true ∧ m1.artworkEncoded = "" ∧
      m1.supportsKitty = true then
    ({ m1 with lastTrackID := "" }, [])
  else (m1, [])

/-- The `configReloadMsg` case of `Update` (model.go), with `cfg` the freshly
reloaded snapshot. -/
def applyConfigReload (cfg : Config) (m : MState) : MState × List GenCmd :=
  let m0 := if cfg.uiColorMode = "manual" then { m with color := cfg.uiColor }
            else m
  if cfg.vinylMode = false ∧ m0.vinylFrameCache ≠ [] then
    ({ m0 with vinylFrameCache := [], vinylCacheTrackID := "",
               vinylCachedFrames := 0, lastTrackID := "" }, [])
  else if cfg.vinylMode = true ∧ m0.vinylFrameCache ≠ [] ∧
      m0.vinylCachedFrames ≠ cfg.vinylFrames then
    let m1 := { m0 with vinylFrameCache := [], vinylCacheTrackID := "",
                        vinylCachedFrames := 0, vinylRotation := 0,
                        vinylAccumulator := 0 }
    if m1.rawArtworkData ≠ [] ∧ m1.lastTrackID ≠ "" then
      (m1, [⟨m1.rawArtworkData, m1.lastTrackID, cfg.vinylFrames⟩])
    else configReloadRest cfg m1
  else configReloadRest cfg m0

/-- The model value `main` starts the program with: configured color,
terminal capability flag, every other field zero. -/
def initialModel (color : String) (kitty : Bool) : MState :=
  { title := "", artist := "", album := "", status := "", totalTime := "",
    color := color, lastError := none, lastPosition := 0,
    lastPositionTime := 0, duration := 0, isPlaying := false,
    artworkEncoded := "", supportsKitty := kitty, lastTrackID := "",
    rawArtworkData := [], vinylRotation := 0, vinylFrameCache := [],
    vinylCacheTrackID := "", vinylAccumulator := 0, vinylCachedFrames := 0,
    scrollOffset := 0, scrollPause := 0, scrollTick := 0 }

/-- The event-loop system: live model, current config snapshot, in-flight
frame-generation commands. -/
structure Sys where
  m : MState
  cfg : Config
  inflight : List GenCmd
deriving DecidableEq

/-- Reachability of the event loop under tick, fetch-result, config-reload
and vinyl-frames-result transitions.  A frames result is only deliverable
for an in-flight command, carrying that command's track identity and
exactly its frame count (with arbitrary frame strings, as produced by
`processArtwork` per frame). -/
inductive Reach : Sys → Prop
  | init (color : String) (kitty : Bool) (cfg : Config) :
      Reach ⟨initialModel color kitty, cfg, []⟩
  | tick {s : Sys} (h : Reach s) (m2 : MState)
      (h2 : applyTickMsg s.cfg s.m = some m2) :
      Reach ⟨m2, s.cfg, s.inflight⟩
  | fetchResult {s : Sys} (h : Reach s) (msg : SongDataMsg) (now : ℚ) :
      Reach ⟨(applySongDataMsg s.cfg s.m msg now).1, s.cfg,
             s.inflight ++ ((applySongDataMsg s.cfg s.m msg now).2).toList⟩
  | configReload {s : Sys} (h : Reach s) (cfg2 : Config) :
      Reach ⟨(applyConfigReload cfg2 s.m).1, cfg2,
             s.inflight ++ (applyConfigReload cfg2 s.m).2⟩
  | framesResult {s : Sys} (h : Reach s) (cmd : GenCmd) (hmem : cmd ∈ s.inflight)
      (frames : List String) (hlen : frames.length = cmd.frameCount) :
      Reach ⟨applyVinylFramesMsg s.m ⟨frames, cmd.trackID⟩, s.cfg,
             s.inflight.erase cmd⟩

theorem updateVinylRotation_fields (cfg : Config) (m m2 : MState)
    (h : updateVinylRotation cfg m = some m2) :
    m2.vinylFrameCache = m.vinylFrameCache ∧
    m2.vinylCachedFrames = m.vinylCachedFrames ∧
    m2.lastTrackID = m.lastTrackID ∧
    m2.isPlaying = m.isPlaying ∧
    m2.scrollTick = m.scrollTick := by
  rw [updateVinylRotation] at h
  split at h
  · obtain rfl := Option.some.inj h
    exact ⟨rfl, rfl, rfl, rfl, rfl⟩
  · simp only [] at h
    split at h
    · exact absurd h (by simp)
    · obtain rfl := Option.some.inj h
      exact ⟨rfl, rfl, rfl, rfl, rfl⟩

theorem vinylDrain_acc_lt_one :
    ∀ (n : Nat) (fc : Nat) (cache : List String) (rot : Nat) (acc : ℚ)
      (art : String) (r : Nat) (a2 : ℚ) (s2 : String), (⌈acc⌉).toNat ≤ n →
      vinylDrain fc cache rot acc art = some (r, a2, s2) → a2 < 1 := by
  intro n
  induction n with
  | zero =>
    intro fc cache rot acc art r a2 s2 hn h
    have hlt : acc < 1 := by
      have h0 : ⌈acc⌉ ≤ 0 := by omega
      have h1 : acc ≤ (⌈acc⌉ : ℚ) := Int.le_ceil acc
      have h2 : ((⌈acc⌉ : ℤ) : ℚ) ≤ 0 := by exact_mod_cast h0
      linarith
    rw [vinylDrain, if_neg (not_le.mpr hlt)] at h
    obtain ⟨-, rfl, -⟩ := Prod.mk.injEq .. ▸ Option.some.inj h
    exact hlt
  | succ k ih =>
    intro fc cache rot acc art r a2 s2 hn h
    by_cases hge : 1 ≤ acc
    · rw [vinylDrain, if_pos hge] at h
      split at h
      · exact absurd h (by simp)
      · simp only [] at h
        split at h
        · exact absurd h (by simp)
        · rename_i s hs
          refine ih fc cache ((rot + 1) % fc) (acc - 1) s r a2 s2 ?_ h
          have hceil : ⌈acc - 1⌉ = ⌈acc⌉ - 1 := by
            rw [show acc - 1 = acc - ((1 : Int) : ℚ) by push_cast; ring,
              Int.ceil_sub_int]
          have hc1 : (1 : Int) ≤ ⌈acc⌉ := by
            have := Int.ceil_le_ceil (α := ℚ) hge
            simpa using this
          omega
    · rw [vinylDrain, if_neg hge] at h
      obtain ⟨-, rfl, -⟩ := Prod.mk.injEq .. ▸ Option.some.inj h
      exact not_le.mp hge

theorem updateVinylRotation_acc_lt_one (cfg : Config) (m m2 : MState)
    (h : updateVinylRotation cfg m = some m2)
    (hacc : m.vinylAccumulator < 1) : m2.vinylAccumulator < 1 := by
  rw [updateVinylRotation] at h
  split at h
  · obtain rfl := Option.some.inj h
    exact hacc
  · simp only [] at h
    split at h
    · exact absurd h (by simp)
    · rename_i hv
      obtain rfl := Option.some.inj h
      have := vinylDrain_acc_lt_one _ _ _ _ _ _ _ _ _ (le_refl _) hv
      simpa using this

theorem applySongDataMsg_vinyl (cfg : Config) (m : MState) (msg : SongDataMsg)
    (now : ℚ) :
    ((applySongDataMsg cfg m msg now).1.vinylFrameCache = m.vinylFrameCache ∨
      (applySongDataMsg cfg m msg now).1.vinylFrameCache = []) ∧
    (applySongDataMsg cfg m msg now).1.vinylCachedFrames = m.vinylCachedFrames ∧
    (applySongDataMsg cfg m msg now).1.vinylAccumulator = m.vinylAccumulator := by
  rw [applySongDataMsg]
  rcases msg.err with _ | e
  all_goals simp only []
  case some => simp
  case none =>
    split_ifs <;> simp

theorem configReloadRest_vinyl (cfg : Config) (m1 : MState) :
    (configReloadRest cfg m1).1.vinylFrameCache = m1.vinylFrameCache ∧
    (configReloadRest cfg m1).1.vinylCachedFrames = m1.vinylCachedFrames ∧
    (configReloadRest cfg m1).1.vinylAccumulator = m1.vinylAccumulator := by
  rw [configReloadRest]
  split_ifs <;> simp

theorem applyConfigReload_vinyl (cfg : Config) (m : MState) :
    ((applyConfigReload cfg m).1.vinylFrameCache = m.vinylFrameCache ∨
      (applyConfigReload cfg m).1.vinylFrameCache = []) ∧
    ((applyConfigReload cfg m).1.vinylFrameCache = [] ∨
      (applyConfigReload cfg m).1.vinylCachedFrames = m.vinylCachedFrames) ∧
    ((applyConfigReload cfg m).1.vinylAccumulator = m.vinylAccumulator ∨
      (applyConfigReload cfg m).1.vinylAccumulator = 0) := by
  obtain ⟨m0, hm0, hc0, hf0, ha0⟩ :
      ∃ m0, (if cfg.uiColorMode = "manual" then { m with color := cfg.uiColor }
        else m) = m0 ∧ m0.vinylFrameCache = m.vinylFrameCache ∧
        m0.vinylCachedFrames = m.vinylCachedFrames ∧
        m0.vinylAccumulator = m.vinylAccumulator :=
    ⟨_, rfl, by split_ifs <;> rfl, by split_ifs <;> rfl, by split_ifs <;> rfl⟩
  rw [applyConfigReload, hm0]
  split_ifs with hA hB
  · simp [ha0]
  · simp only []
    split_ifs with hC
    · simp
    · obtain ⟨hc, hf, ha⟩ := configReloadRest_vinyl cfg
        { m0 with vinylFrameCache := [], vinylCacheTrackID := "",
                  vinylCachedFrames := 0, vinylRotation := 0,
                  vinylAccumulator := 0 }
      rw [hc, hf, ha]
      simp
  · obtain ⟨hc, hf, ha⟩ := configReloadRest_vinyl cfg m0
    rw [hc, hf, ha, hc0, hf0, ha0]
    simp

theorem applyVinylFramesMsg_vinyl (m : MState) (msg : VinylFramesMsg) :
    applyVinylFramesMsg m msg = m ∨
    ((applyVinylFramesMsg m msg).vinylFrameCache = msg.frames ∧
      (applyVinylFramesMsg m msg).vinylCachedFrames = msg.frames.length ∧
      (applyVinylFramesMsg m msg).vinylAccumulator = 0 ∧
      (applyVinylFramesMsg m msg).vinylRotation = 0) := by
  rw [applyVinylFramesMsg]
  split_ifs <;> simp

theorem applyTickMsg_fields (cfg : Config) (m m2 : MState)
    (h : applyTickMsg cfg m = some m2) :
    m2.vinylFrameCache = m.vinylFrameCache ∧
    m2.vinylCachedFrames = m.vinylCachedFrames := by
  rw [applyTickMsg] at h
  split at h
  · exact absurd h (by simp)
  · rename_i m2' hv
    obtain rfl := Option.some.inj h
    obtain ⟨hc, hf, -, -, -⟩ := updateVinylRotation_fields _ _ _ hv
    obtain ⟨-, -, hc3, -, hf3⟩ := scrollAdvance_preserves cfg m2'
    exact ⟨by rw [hc3, hc], by rw [hf3, hf]⟩

theorem applyTickMsg_acc (cfg : Config) (m m2 : MState)
    (h : applyTickMsg cfg m = some m2) (hacc : m.vinylAccumulator < 1) :
    m2.vinylAccumulator < 1 := by
  rw [applyTickMsg] at h
  split at h
  · exact absurd h (by simp)
  · rename_i m2' hv
    obtain rfl := Option.some.inj h
    obtain ⟨-, ha3, -, -, -⟩ := scrollAdvance_preserves cfg m2'
    rw [ha3]
    exact updateVinylRotation_acc_lt_one _ _ _ hv (by simpa using hacc)

theorem applyTickMsg_isSome (cfg : Config) (m : MState)
    (hacc : m.vinylAccumulator < 1) : (applyTickMsg cfg m).isSome := by
  rw [applyTickMsg]
  have hs := updateVinylRotation_isSome cfg { m with scrollTick := m.scrollTick + 1 }
    (by simpa using hacc)
  rcases hv : updateVinylRotation cfg { m with scrollTick := m.scrollTick + 1 }
    with _ | m2
  · rw [hv] at hs
    exact absurd hs (by simp)
  · rfl

theorem reach_acc_lt_one : ∀ s, Reach s → s.m.vinylAccumulator < 1 := by
  intro s h
  induction h with
  | init color kitty cfg => norm_num [initialModel]
  | tick h m2 h2 ih => exact applyTickMsg_acc _ _ _ h2 ih
  | fetchResult h msg now ih =>
    rename_i s2
    obtain ⟨-, -, ha⟩ := applySongDataMsg_vinyl s2.cfg s2.m msg now
    show (applySongDataMsg s2.cfg s2.m msg now).1.vinylAccumulator < 1
    rw [ha]
    exact ih
  | configReload h cfg2 ih =>
    rename_i s2
    obtain ⟨-, -, ha⟩ := applyConfigReload_vinyl cfg2 s2.m
    show (applyConfigReload cfg2 s2.m).1.vinylAccumulator < 1
    rcases ha with ha | ha
    · rw [ha]
      exact ih
    · rw [ha]
      norm_num
  | framesResult h cmd hmem frames hlen ih =>
    rename_i s2
    show (applyVinylFramesMsg s2.m ⟨frames, cmd.trackID⟩).vinylAccumulator < 1
    rcases applyVinylFramesMsg_vinyl s2.m ⟨frames, cmd.trackID⟩ with he | ⟨-, -, ha, -⟩
    · rw [he]
      exact ih
    · rw [ha]
      norm_num

/-- C7 (amended): in every reachable state the Animation Frame Cache is
either empty or has exactly the frame count it was generated with (the
recorded `vinylCachedFrames`); it is discarded wholesale — set to empty,
never patched element-wise — when the track identity changes, when vinyl
mode is disabled, and when the configured frame count changes; every
transition either keeps the cache, empties it, or replaces it with a whole
received frame slice.  (The cache can temporarily differ from the *current*
configured frame count when a result generated under an older frame-count
setting arrives, which refutes the claim as stated.) -/
theorem vinyl_cache_invariant :
    (∀ s, Reach s → s.m.vinylFrameCache = [] ∨
      s.m.vinylFrameCache.length = s.m.vinylCachedFrames) ∧
    (∀ (cfg : Config) (m : MState) (msg : SongDataMsg) (now : ℚ),
      msg.err = none → msg.title ++ "|" ++ msg.artist ≠ m.lastTrackID →
      (applySongDataMsg cfg m msg now).1.vinylFrameCache = []) ∧
    (∀ (cfg2 : Config) (m : MState), cfg2.vinylMode = false →
      m.vinylFrameCache ≠ [] →
      (applyConfigReload cfg2 m).1.vinylFrameCache = []) ∧
    (∀ (cfg2 : Config) (m : MState), cfg2.vinylMode = true →
      m.vinylFrameCache ≠ [] → m.vinylCachedFrames ≠ cfg2.vinylFrames →
      (applyConfigReload cfg2 m).1.vinylFrameCache = []) ∧
    (∀ (m : MState) (msg : VinylFramesMsg),
      (applyVinylFramesMsg m msg).vinylFrameCache = m.vinylFrameCache ∨
      (applyVinylFramesMsg m msg).vinylFrameCache = msg.frames) ∧
    (∀ (cfg : Config) (m : MState) (msg : SongDataMsg) (now : ℚ),
      (applySongDataMsg cfg m msg now).1.vinylFrameCache = m.vinylFrameCache ∨
      (applySongDataMsg cfg m msg now).1.vinylFrameCache = []) ∧
    (∀ (cfg2 : Config) (m : MState),
      (applyConfigReload cfg2 m).1.vinylFrameCache = m.vinylFrameCache ∨
      (applyConfigReload cfg2 m).1.vinylFrameCache = []) ∧
    (∀ (cfg : Config) (m m2 : MState), applyTickMsg cfg m = some m2 →
      m2.vinylFrameCache = m.vinylFrameCache) := by
  refine ⟨?_, ?_, ?_, ?_, ?_, ?_, ?_, ?_⟩
  · intro s h
    induction h with
    | init color kitty cfg => exact Or.inl rfl
    | tick h m2 h2 ih =>
      obtain ⟨hc, hf⟩ := applyTickMsg_fields _ _ _ h2
      show m2.vinylFrameCache = [] ∨ m2.vinylFrameCache.length = m2.vinylCachedFrames
      rw [hc, hf]
      exact ih
    | fetchResult h msg now ih =>
      rename_i s2
      obtain ⟨hc, hf, -⟩ := applySongDataMsg_vinyl s2.cfg s2.m msg now
      show (applySongDataMsg s2.cfg s2.m msg now).1.vinylFrameCache = [] ∨ _
      rcases hc with hc | hc
      · rw [hc, hf]
        exact ih
      · exact Or.inl hc
    | configReload h cfg2 ih =>
      rename_i s2
      obtain ⟨hc, hf, -⟩ := applyConfigReload_vinyl cfg2 s2.m
      show (applyConfigReload cfg2 s2.m).1.vinylFrameCache = [] ∨ _
      rcases hf with hf | hf
      · exact Or.inl hf
      · rcases hc with hc | hc
        · rw [hc, hf]
          exact ih
        · exact Or.inl hc
    | framesResult h cmd hmem frames hlen ih =>
      rename_i s2
      show (applyVinylFramesMsg s2.m ⟨frames, cmd.trackID⟩).vinylFrameCache = [] ∨ _
      rcases applyVinylFramesMsg_vinyl s2.m ⟨frames, cmd.trackID⟩
        with he | ⟨hc, hf, -, -⟩
      · rw [he]
        exact ih
      · rw [hc, hf]
        exact Or.inr rfl
  · intro cfg m msg now herr hne
    simp only [applySongDataMsg, herr]
    rw [if_neg hne]
    split_ifs <;> simp
  · intro cfg2 m hmode hne
    obtain ⟨m0, hm0, hc0⟩ :
        ∃ m0, (if cfg2.uiColorMode = "manual" then { m with color := cfg2.uiColor }
          else m) = m0 ∧ m0.vinylFrameCache = m.vinylFrameCache :=
      ⟨_, rfl, by split_ifs <;> rfl⟩
    rw [applyConfigReload, hm0, if_pos ⟨hmode, by rw [hc0]; exact hne⟩]
  · intro cfg2 m hmode hne hfr
    obtain ⟨m0, hm0, hc0, hf0⟩ :
        ∃ m0, (if cfg2.uiColorMode = "manual" then { m with color := cfg2.uiColor }
          else m) = m0 ∧ m0.vinylFrameCache = m.vinylFrameCache ∧
          m0.vinylCachedFrames = m.vinylCachedFrames :=
      ⟨_, rfl, by split_ifs <;> rfl, by split_ifs <;> rfl⟩
    rw [applyConfigReload, hm0,
      if_neg (by rw [hmode, hc0]; rintro ⟨h, -⟩; cases h),
      if_pos ⟨hmode, by rw [hc0]; exact hne, by rw [hf0]; exact hfr⟩]
    simp only []
    split_ifs
    · rfl
    · obtain ⟨hc, -, -⟩ := configReloadRest_vinyl cfg2
        { m0 with vinylFrameCache := [], vinylCacheTrackID := "",
                  vinylCachedFrames := 0, vinylRotation := 0,
                  vinylAccumulator := 0 }
      rw [hc]
  · intro m msg
    rcases applyVinylFramesMsg_vinyl m msg with he | ⟨hc, -, -, -⟩
    · rw [he]
      exact Or.inl rfl
    · exact Or.inr hc
  · intro cfg m msg now
    exact (applySongDataMsg_vinyl cfg m msg now).1
  · intro cfg2 m
    exact (applyConfigReload_vinyl cfg2 m).1
  · intro cfg m m2 h
    exact (applyTickMsg_fields cfg m m2 h).1

/-- Config snapshot with vinyl mode on and 45 frames. -/
def cfgC45 : Config :=
  { uiColor := "2", uiColorMode := "auto", uiMaxWidth := 45,
    artworkEnabled := true, artworkPadding := 16, artworkWidthPixels := 300,
    artworkWidthColumns := 14, vinylMode := true, vinylRPM := 10,
    vinylFrames := 45, maxLengthWithArt := 22, maxLengthNoArt := 36,
    uiRefreshMs := 100, dataFetchMs := 1000 }

/-- The same snapshot after a live reload that raises vinyl_frames to 90. -/
def cfgC90 : Config :=
  { cfgC45 with vinylFrames := 90 }

/-- A song-data result for track `T|A` carrying artwork bytes. -/
def msgC7 : SongDataMsg :=
  { title := "T", artist := "A", album := "L", status := "Playing",
    duration := 60, position := 0, artwork := "art", rawArtwork := [1],
    color := "", err := none }

def cmdC45 : GenCmd := ⟨[1], "T|A", 45⟩
def cmdC90 : GenCmd := ⟨[1], "T|A", 90⟩

def sC7a : Sys := ⟨initialModel "2" true, cfgC45, []⟩
def sC7b : Sys :=
  ⟨(applySongDataMsg sC7a.cfg sC7a.m msgC7 0).1, sC7a.cfg,
   sC7a.inflight ++ ((applySongDataMsg sC7a.cfg sC7a.m msgC7 0).2).toList⟩
def sC7c : Sys :=
  ⟨(applyConfigReload cfgC90 sC7b.m).1, cfgC90,
   sC7b.inflight ++ (applyConfigReload cfgC90 sC7b.m).2⟩
def sC7d : Sys :=
  ⟨applyVinylFramesMsg sC7c.m ⟨List.replicate 90 "e", cmdC90.trackID⟩, sC7c.cfg,
   sC7c.inflight.erase cmdC90⟩
def sC7e : Sys :=
  ⟨applyVinylFramesMsg sC7d.m ⟨List.replicate 45 "e", cmdC45.trackID⟩, sC7d.cfg,
   sC7d.inflight.erase cmdC45⟩

/-- C7: the claim as stated — cache empty or exactly the *configured* frame
count — fails on a reachable state.  A fetch under `vinyl_frames = 45`
issues a 45-frame generation; the config reloads to 90 while the cache is
empty, issuing a 90-frame generation for the same track; the 90-frame
result lands first, then the stale-count 45-frame result (same track, so
the staleness check passes) is installed: the cache is non-empty with 45
entries while the configured frame count is 90. -/
theorem vinyl_cache_config_mismatch_counterexample :
    Reach sC7e ∧ sC7e.m.vinylFrameCache ≠ [] ∧
    sC7e.m.vinylFrameCache.length = 45 ∧ sC7e.cfg.vinylFrames = 90 := by
  refine ⟨?_, ?_, ?_, ?_⟩
  · exact Reach.framesResult
      (Reach.framesResult
        (Reach.configReload
          (Reach.fetchResult (Reach.init "2" true cfgC45) msgC7 0)
          cfgC90)
        cmdC90 (by decide) (List.replicate 90 "e") (by simp [cmdC90]))
      cmdC45 (by decide) (List.replicate 45 "e") (by simp [cmdC45])
  · decide
  · decide
  · decide

/-- Witness for the amended C7 theorem: the recorded-count invariant holds at
the initial state, and a fresh-track song-data result empties the cache at a
concrete state. -/
theorem vinyl_cache_invariant_witness :
    ((⟨initialModel "2" true, cfgC45, []⟩ : Sys).m.vinylFrameCache = [] ∨
      (⟨initialModel "2" true, cfgC45, []⟩ : Sys).m.vinylFrameCache.length =
        (⟨initialModel "2" true, cfgC45, []⟩ : Sys).m.vinylCachedFrames) ∧
    (applySongDataMsg cfgC45 (initialModel "2" true) msgC7 0).1.vinylFrameCache = [] :=
  ⟨vinyl_cache_invariant.1 _ (Reach.init "2" true cfgC45),
   vinyl_cache_invariant.2.1 cfgC45 (initialModel "2" true) msgC7 0 rfl (by decide)⟩

theorem vinylDrain_rot :
    ∀ (n : Nat) (fc : Nat) (cache : List String) (rot : Nat) (acc : ℚ)
      (art : String) (r : Nat) (a2 : ℚ) (s2 : String), (⌈acc⌉).toNat ≤ n →
      vinylDrain fc cache rot acc art = some (r, a2, s2) →
      r = rot ∨ r < fc := by
  intro n
  induction n with
  | zero =>
    intro fc cache rot acc art r a2 s2 hn h
    have hlt : acc < 1 := by
      have h0 : ⌈acc⌉ ≤ 0 := by omega
      have h1 : acc ≤ (⌈acc⌉ : ℚ) := Int.le_ceil acc
      have h2 : ((⌈acc⌉ : ℤ) : ℚ) ≤ 0 := by exact_mod_cast h0
      linarith
    rw [vinylDrain, if_neg (not_le.mpr hlt)] at h
    obtain ⟨rfl, -, -⟩ := Prod.mk.injEq .. ▸ Option.some.inj h
    exact Or.inl rfl
  | succ k ih =>
    intro fc cache rot acc art r a2 s2 hn h
    by_cases hge : 1 ≤ acc
    · rw [vinylDrain, if_pos hge] at h
      split at h
      · exact absurd h (by simp)
      · rename_i hfc
        simp only [] at h
        split at h
        · exact absurd h (by simp)
        · rename_i s hs
          have hrec := ih fc cache ((rot + 1) % fc) (acc - 1) s r a2 s2 ?_ h
          · rcases hrec with hrec | hrec
            · exact Or.inr (hrec ▸ Nat.mod_lt _ (by omega))
            · exact Or.inr hrec
          · have hceil : ⌈acc - 1⌉ = ⌈acc⌉ - 1 := by
              rw [show acc - 1 = acc - ((1 : Int) : ℚ) by push_cast; ring,
                Int.ceil_sub_int]
            have hc1 : (1 : Int) ≤ ⌈acc⌉ := by
              have := Int.ceil_le_ceil (α := ℚ) hge
              simpa using this
            omega
    · rw [vinylDrain, if_neg hge] at h
      obtain ⟨rfl, -, -⟩ := Prod.mk.injEq .. ▸ Option.some.inj h
      exact Or.inl rfl

/-- C10: in every reachable state of the event loop the tick transition
cannot panic — every read of the frame cache by index is in bounds and the
modulo-by-frame-count never divides by zero (modelled as the transition
never returning the `none` panic marker); the rotation only advances when
the cache length equals the configured frame count and is reduced modulo
that count before indexing; and the vinyl-frames handler indexes element 0
only after checking the slice is non-empty, resetting the rotation index
to 0 when installing a new cache. -/
theorem vinyl_index_safety :
    (∀ s, Reach s → (applyTickMsg s.cfg s.m).isSome) ∧
    (∀ (cfg : Config) (m m2 : MState), updateVinylRotation cfg m = some m2 →
      (m.vinylFrameCache.length ≠ cfg.vinylFrames → m2 = m) ∧
      (m2.vinylRotation = m.vinylRotation ∨ m2.vinylRotation < cfg.vinylFrames)) ∧
    (∀ (m : MState) (msg : VinylFramesMsg), msg.trackID = m.lastTrackID →
      msg.frames ≠ [] →
      (applyVinylFramesMsg m msg).vinylRotation = 0 ∧
      (applyVinylFramesMsg m msg).artworkEncoded = msg.frames.headD "" ∧
      (applyVinylFramesMsg m msg).vinylFrameCache = msg.frames) := by
  refine ⟨?_, ?_, ?_⟩
  · intro s h
    exact applyTickMsg_isSome _ _ (reach_acc_lt_one s h)
  · intro cfg m m2 h
    constructor
    · intro hne
      rw [updateVinylRotation, if_pos (by simp [hne])] at h
      exact (Option.some.inj h).symm
    · rw [updateVinylRotation] at h
      split at h
      · obtain rfl := Option.some.inj h
        exact Or.inl rfl
      · simp only [] at h
        split at h
        · exact absurd h (by simp)
        · rename_i hv
          obtain rfl := Option.some.inj h
          have := vinylDrain_rot _ _ _ _ _ _ _ _ _ (le_refl _) hv
          simpa using this
  · intro m msg ht hf
    rw [applyVinylFramesMsg, if_pos ⟨ht, hf⟩]
    exact ⟨rfl, rfl, rfl⟩

/-- Witness for C10 at concrete states: the tick transition is defined at
the initial state, a rotation update with a mismatched cache length is a
no-op, and a matching non-empty frames result installs frame 0. -/
theorem vinyl_index_safety_witness :
    (applyTickMsg (⟨initialModel "2" true, cfgC45, []⟩ : Sys).cfg
      (⟨initialModel "2" true, cfgC45, []⟩ : Sys).m).isSome ∧
    (applyVinylFramesMsg (initialModel "2" true)
        { frames := ["f0", "f1"], trackID := "" }).vinylRotation = 0 ∧
    (applyVinylFramesMsg (initialModel "2" true)
        { frames := ["f0", "f1"], trackID := "" }).artworkEncoded =
      (["f0", "f1"] : List String).headD "" ∧
    (applyVinylFramesMsg (initialModel "2" true)
        { frames := ["f0", "f1"], trackID := "" }).vinylFrameCache =
      ["f0", "f1"] :=
  ⟨vinyl_index_safety.1 _ (Reach.init "2" true cfgC45),
   vinyl_index_safety.2.2 (initialModel "2" true) ⟨["f0", "f1"], ""⟩ rfl (by decide)⟩

/-! ## Dominant color extraction (`extractDominantColor`, artwork file)

Embeds the sampling heuristic: every 5th pixel in both axes, transparent
pixels (`a < 32768`) skipped, surviving pixels bucketed by 24-bit RGB in
first-encounter order (the Go `map` iteration order is unspecified; the
claims proved below do not depend on it), HSL-style lightness/saturation
filter, score, the in-place double-loop selection sort, and the k-means
fallback (`prominentcolor.Kmeans`, an external library, passed as the
parameter `km`, `none` modelling its error). -/

/-- The y/x values visited by `for v := 0; v < bound; v += 5`. -/
def stepRange (bound : Nat) : List Nat :=
  (List.range bound).filter (fun i => i % 5 = 0)

/-- Increment the count of `rgb` in the first-encounter-ordered color map. -/
def bumpColor (mp : List (Nat × Nat)) (rgb : Nat) : List (Nat × Nat) :=
  match mp with
  | [] => [(rgb, 1)]
  | (k, c) :: rest =>
    if k = rgb then (k, c + 1) :: rest else (k, c) :: bumpColor rest rgb

/-- One sampled pixel: skip when `a < 32768`, else pack the 8-bit channels
`uint8(r>>8) << 16 | uint8(g>>8) << 8 | uint8(b>>8)` and count it. -/
def samplePixel (img : Img) (mp : List (Nat × Nat)) (x y : Nat) :
    List (Nat × Nat) :=
  let p := img.pix x y
  if p.2.2.2 < 32768 then mp
  else
    let r8 := p.1 / 256 % 256
    let g8 := p.2.1 / 256 % 256
    let b8 := p.2.2.1 / 256 % 256
    bumpColor mp (r8 * 65536 + g8 * 256 + b8)

/-- The sampling double loop building the color map. -/
def colorMap (img : Img) : List (Nat × Nat) :=
  (stepRange img.height).foldl
    (fun mp y => (stepRange img.width).foldl (fun mp2 x => samplePixel img mp2 x y) mp)
    []

/-- HSL-style lightness of a packed 24-bit RGB value. -/
def lightnessOf (rgb : Nat) : ℚ :=
  let rf : ℚ := ((rgb / 65536 % 256 : Nat) : ℚ) / 255
  let gf : ℚ := ((rgb / 256 % 256 : Nat) : ℚ) / 255
  let bf : ℚ := ((rgb % 256 : Nat) : ℚ) / 255
  (max rf (max gf bf) + min rf (min gf bf)) / 2

/-- HSL-style saturation of a packed 24-bit RGB value. -/
def saturationOf (rgb : Nat) : ℚ :=
  let rf : ℚ := ((rgb / 65536 % 256 : Nat) : ℚ) / 255
  let gf : ℚ := ((rgb / 256 % 256 : Nat) : ℚ) / 255
  let bf : ℚ := ((rgb % 256 : Nat) : ℚ) / 255
  let mx := max rf (max gf bf)
  let mn := min rf (min gf bf)
  if mx ≠ mn then
    if lightnessOf rgb > 1/2 then (mx - mn) / (2 - mx - mn)
    else (mx - mn) / (mx + mn)
  else 0

/-- The candidate score `2.5·S + 1.5·L' + count/1000` with the near-white
penalty `L' = 0.7 - (L - 0.7)` for `L > 0.7`. -/
def scoreOf (rgb : Nat) (count : Nat) : ℚ :=
  let L := lightnessOf rgb
  let Ls := if L > 7/10 then 7/10 - (L - 7/10) else L
  saturationOf rgb * (5/2) + Ls * (3/2) + (count : ℚ) / 1000

structure ColorScore where
  rgb : Nat
  count : Nat
  score : ℚ
deriving DecidableEq

def defaultColorScore : ColorScore := ⟨0, 0, 0⟩

/-- Candidates surviving the readability filter, in color-map order. -/
def candidates (img : Img) : List ColorScore :=
  (colorMap img).filterMap fun p =>
    if lightnessOf p.1 < 3/10 ∨ (17/20 : ℚ) < lightnessOf p.1 ∨
        saturationOf p.1 < 1/4 then none
    else some ⟨p.1, p.2, scoreOf p.1 p.2⟩

/-- One comparison/swap of the Go double-loop sort. -/
def swapStep (l : List ColorScore) (i j : Nat) : List ColorScore :=
  let ci := l.getD i defaultColorScore
  let cj := l.getD j defaultColorScore
  if ci.score < cj.score then (l.set i cj).set j ci else l

/-- The inner loop `for j := i+1; j < len; j++`. -/
def sortInner (i : Nat) : Nat → Nat → List ColorScore → List ColorScore
  | _, 0, l => l
  | j, fuel + 1, l => sortInner i (j + 1) fuel (swapStep l i j)

/-- The outer loop `for i := 0; i < len; i++`. -/
def sortOuter : Nat → Nat → List ColorScore → List ColorScore
  | _, 0, l => l
  | i, fuel + 1, l => sortOuter (i + 1) fuel (sortInner i (i + 1) (l.length - (i + 1)) l)

def sortCandidates (l : List ColorScore) : List ColorScore := sortOuter 0 l.length l

def hexDigit (n : Nat) : Char :=
  (String.toList "0123456789abcdef").getD n '0'

/-- `%02x`: lowercase hex, zero-padded to at least two digits. -/
def toHexDigits (n : Nat) : List Char :=
  if _h : n < 16 then [hexDigit n]
  else toHexDigits (n / 16) ++ [hexDigit (n % 16)]
termination_by n
decreasing_by exact Nat.div_lt_self (by omega) (by omega)

def hex02 (n : Nat) : String :=
  if n < 16 then String.mk ['0', hexDigit n] else String.mk (toHexDigits n)

/-- `fmt.Sprintf("#%02x%02x%02x", uint8(rgb>>16), uint8(rgb>>8), uint8(rgb))`. -/
def hexColor (rgb : Nat) : String :=
  "#" ++ hex02 (rgb / 65536 % 256) ++ hex02 (rgb / 256 % 256) ++ hex02 (rgb % 256)

/-- Shallow embedding of `extractDominantColor`.  `km` models the external
`prominentcolor.Kmeans` call returning its first cluster's R, G, B;
a `none` image models the Go `nil` check. -/
def extractDominantColor (km : Img → Option (List (Nat × Nat × Nat)))
    (img : Option Img) : Except String String :=
  match img with
  | none => .error "nil image"
  | some im =>
    let cands := candidates im
    if cands = [] then
      match km im with
      | none => .error "no suitable colors found"
      | some [] => .error "no suitable colors found"
      | some (c :: _) => .ok ("#" ++ hex02 c.1 ++ hex02 c.2.1 ++ hex02 c.2.2)
    else
      .ok (hexColor ((sortCandidates cands).getD 0 defaultColorScore).rgb)

theorem getD_mem_of_lt (l : List ColorScore) (n : Nat) (d : ColorScore)
    (h : n < l.length) : l.getD n d ∈ l := by
  rw [List.getD_eq_getElem?_getD, List.getElem?_eq_getElem h]
  exact List.getElem_mem h

theorem swapStep_length (l : List ColorScore) (i j : Nat) :
    (swapStep l i j).length = l.length := by
  rw [swapStep]
  split_ifs <;> simp

theorem swapStep_sub (l : List ColorScore) (i j : Nat) (hi : i < l.length)
    (hj : j < l.length) : ∀ x ∈ swapStep l i j, x ∈ l := by
  intro x hx
  rw [swapStep] at hx
  split_ifs at hx
  · rcases List.mem_or_eq_of_mem_set hx with hx2 | rfl
    · rcases List.mem_or_eq_of_mem_set hx2 with hx3 | rfl
      · exact hx3
      · exact getD_mem_of_lt l j _ hj
    · exact getD_mem_of_lt l i _ hi
  · exact hx

theorem sortInner_length (i : Nat) :
    ∀ (fuel j : Nat) (l : List ColorScore),
      (sortInner i j fuel l).length = l.length := by
  intro fuel
  induction fuel with
  | zero => intro j l; rfl
  | succ k ih =>
    intro j l
    rw [sortInner, ih, swapStep_length]

theorem sortInner_sub (i : Nat) :
    ∀ (fuel j : Nat) (l : List ColorScore), i < l.length →
      j + fuel ≤ l.length → ∀ x ∈ sortInner i j fuel l, x ∈ l := by
  intro fuel
  induction fuel with
  | zero => intro j l _ _ x hx; exact hx
  | succ k ih =>
    intro j l hi hjf x hx
    rw [sortInner] at hx
    have hj : j < l.length := by omega
    have hx2 := ih (j + 1) (swapStep l i j)
      (by rw [swapStep_length]; exact hi)
      (by rw [swapStep_length]; omega) x hx
    exact swapStep_sub l i j hi hj x hx2

theorem sortOuter_length :
    ∀ (fuel i : Nat) (l : List ColorScore),
      (sortOuter i fuel l).length = l.length := by
  intro fuel
  induction fuel with
  | zero => intro i l; rfl
  | succ k ih =>
    intro i l
    rw [sortOuter, ih, sortInner_length]

theorem sortOuter_sub :
    ∀ (fuel i : Nat) (l : List ColorScore), ∀ x ∈ sortOuter i fuel l, x ∈ l := by
  intro fuel
  induction fuel with
  | zero => intro i l x hx; exact hx
  | succ k ih =>
    intro i l x hx
    rw [sortOuter] at hx
    have hx2 := ih (i + 1) (sortInner i (i + 1) (l.length - (i + 1)) l) x hx
    by_cases hi : i < l.length
    · exact sortInner_sub i (l.length - (i + 1)) (i + 1) l hi (by omega) x hx2
    · have h0 : l.length - (i + 1) = 0 := by omega
      rw [h0] at hx2
      exact hx2

theorem sortCandidates_length (l : List ColorScore) :
    (sortCandidates l).length = l.length := sortOuter_length _ _ _

theorem sortCandidates_sub (l : List ColorScore) :
    ∀ x ∈ sortCandidates l, x ∈ l := sortOuter_sub _ _ _

theorem candidates_filter (img : Img) :
    ∀ c ∈ candidates img, 3/10 ≤ lightnessOf c.rgb ∧
      lightnessOf c.rgb ≤ 17/20 ∧ 1/4 ≤ saturationOf c.rgb := by
  intro c hc
  rw [candidates] at hc
  obtain ⟨p, -, hp⟩ := List.mem_filterMap.mp hc
  split_ifs at hp with hcond
  all_goals
    push_neg at hcond
    obtain rfl := Option.some.inj hp
    exact ⟨hcond.1, hcond.2.1, hcond.2.2⟩

theorem colorMap_transparent (img : Img)
    (ha : ∀ x y, (img.pix x y).2.2.2 = 0) : colorMap img = [] := by
  rw [colorMap]
  have hinner : ∀ (y : Nat) (xs : List Nat) (mp : List (Nat × Nat)),
      xs.foldl (fun mp2 x => samplePixel img mp2 x y) mp = mp := by
    intro y xs
    induction xs with
    | nil => intro mp; rfl
    | cons x xs ih =>
      intro mp
      rw [List.foldl_cons]
      have hs : samplePixel img mp x y = mp := by
        rw [samplePixel, if_pos (by rw [ha x y]; norm_num)]
      rw [hs, ih]
  have houter : ∀ (ys : List Nat) (mp : List (Nat × Nat)),
      ys.foldl (fun mp y =>
        (stepRange img.width).foldl (fun mp2 x => samplePixel img mp2 x y) mp) mp = mp := by
    intro ys
    induction ys with
    | nil => intro mp; rfl
    | cons y ys ih =>
      intro mp
      rw [List.foldl_cons, hinner, ih]
  exact houter _ _

/-- C3: any color returned by the primary sampling heuristic (the
`candidates ≠ []` path, which never consults k-means) has, recomputed from
its returned 24-bit RGB value, lightness `0.30 ≤ L ≤ 0.85` and saturation
`S ≥ 0.25`; and on an image whose every pixel has alpha 0 the primary path
yields no candidates, so the extractor returns the k-means fallback result
or fails with the no-suitable-color error — it is a total function, so it
never crashes. -/
theorem color_filter_invariant :
    (∀ (km : Img → Option (List (Nat × Nat × Nat))) (img : Img),
      candidates img ≠ [] →
      ∃ rgb, GoPlaying.extractDominantColor km (some img) = .ok (hexColor rgb) ∧
        3/10 ≤ lightnessOf rgb ∧ lightnessOf rgb ≤ 17/20 ∧
        1/4 ≤ saturationOf rgb) ∧
    (∀ (km : Img → Option (List (Nat × Nat × Nat))) (img : Img),
      (∀ x y, (img.pix x y).2.2.2 = 0) →
      GoPlaying.extractDominantColor km (some img) =
        match km img with
        | some (c :: _) => .ok ("#" ++ hex02 c.1 ++ hex02 c.2.1 ++ hex02 c.2.2)
        | some [] => .error "no suitable colors found"
        | none => .error "no suitable colors found") := by
  constructor
  · intro km img hne
    refine ⟨((sortCandidates (candidates img)).getD 0 defaultColorScore).rgb,
      ?_, ?_⟩
    · rw [extractDominantColor]
      rw [if_neg hne]
    · have hlen : (sortCandidates (candidates img)).length =
          (candidates img).length := sortCandidates_length _
      rcases hsort : sortCandidates (candidates img) with _ | ⟨c0, rest⟩
      · exfalso
        apply hne
        rw [hsort] at hlen
        exact List.length_eq_zero.mp hlen.symm
      · have hc0 : ((c0 :: rest).getD 0 defaultColorScore) = c0 := rfl
        rw [hc0]
        have hmem : c0 ∈ candidates img :=
          sortCandidates_sub _ c0 (by rw [hsort]; exact List.mem_cons_self c0 rest)
        exact candidates_filter img c0 hmem
  · intro km img ha
    have hc : candidates img = [] := by
      rw [candidates, colorMap_transparent img ha]
      rfl
    rw [extractDominantColor]
    rw [if_pos hc]
    rcases km img with _ | ⟨_ | ⟨c, cs⟩⟩ <;> rfl

/-- A 1×1 fully opaque pure-red image (16-bit channel values). -/
def imgRed : Img := ⟨1, 1, fun _ _ => (65535, 0, 0, 65535)⟩

/-- A 2×2 fully transparent image. -/
def imgClear : Img := ⟨2, 2, fun _ _ => (0, 0, 0, 0)⟩

/-- Witness for C3: the red image takes the primary path and its returned
color satisfies the filter bounds; the transparent image falls through to
the k-means fallback result. -/
theorem color_filter_invariant_witness :
    (∃ rgb, GoPlaying.extractDominantColor (fun _ => none) (some imgRed) =
        .ok (hexColor rgb) ∧
      3/10 ≤ lightnessOf rgb ∧ lightnessOf rgb ≤ 17/20 ∧
      1/4 ≤ saturationOf rgb) ∧
    GoPlaying.extractDominantColor (fun _ => some [(10, 20, 30)]) (some imgClear) =
      (match (fun (_ : Img) => some [((10 : Nat), (20 : Nat), (30 : Nat))]) imgClear with
        | some (c :: _) => .ok ("#" ++ hex02 c.1 ++ hex02 c.2.1 ++ hex02 c.2.2)
        | some [] => .error "no suitable colors found"
        | none => .error "no suitable colors found") :=
  ⟨color_filter_invariant.1 (fun _ => none) imgRed (by
      have h1 : colorMap imgRed = [(16711680, 1)] := by decide
      have hL : lightnessOf 16711680 = 1/2 := by
        norm_num [lightnessOf, max_def, min_def]
      have hS : saturationOf 16711680 = 1 := by
        norm_num [saturationOf, lightnessOf, max_def, min_def]
      rw [candidates, h1]
      norm_num [List.filterMap_cons, hL, hS]),
   color_filter_invariant.2 (fun _ => some [(10, 20, 30)]) imgClear
     (fun _ _ => rfl)⟩

/-! ## Artwork decoding and processing (`decodeArtworkData`, `processArtwork`)

`decodeArtworkData` first attempts a base64 decode (Go
`base64.StdEncoding.DecodeString`: strict 4-character groups with `=`
padding only at the end, `\r`/`\n` ignored), falling back to the raw
bytes; empty data is the hard "empty image data" error; `image.Decode`
is the external decoder parameter `imageDecode`.  `processArtwork`
decodes once and feeds the single decoded image to the color extractor
and the Kitty encoder, treating their failures as soft. -/

/-- Value of one base64 alphabet byte. -/
def b64Index (c : Nat) : Option Nat :=
  if 65 ≤ c ∧ c ≤ 90 then some (c - 65)
  else if 97 ≤ c ∧ c ≤ 122 then some (c - 97 + 26)
  else if 48 ≤ c ∧ c ≤ 57 then some (c - 48 + 52)
  else if c = 43 then some 62
  else if c = 47 then some 63
  else none

/-- Decode whitespace-free base64 input in 4-byte groups; `61` is the
padding byte `=`, allowed only in the final group. -/
def b64Groups : List Nat → Option (List Nat)
  | [] => some []
  | a :: b :: c :: d :: rest =>
    match b64Index a, b64Index b with
    | some va, some vb =>
      if c = 61 then
        if d = 61 ∧ rest = [] then some [va * 4 + vb / 16]
        else none
      else
        match b64Index c with
        | some vc =>
          if d = 61 then
            if rest = [] then some [va * 4 + vb / 16, vb % 16 * 16 + vc / 4]
            else none
          else
            match b64Index d with
            | some vd =>
              match b64Groups rest with
              | some tail =>
                some ([va * 4 + vb / 16, vb % 16 * 16 + vc / 4,
                       vc % 4 * 64 + vd] ++ tail)
              | none => none
            | none => none
        | none => none
    | _, _ => none
  | _ => none

/-- `base64.StdEncoding.DecodeString` on the input bytes (`\r` and `\n`
are ignored by the Go decoder). -/
def base64Decode (input : List Nat) : Option (List Nat) :=
  b64Groups (input.filter fun c => !(c = 10 ∨ c = 13))

/-- Shallow embedding of `decodeArtworkData`. -/
def decodeArtworkData (imageDecode : List Nat → Option Img)
    (imgData : List Nat) : Except String Img :=
  let imageData := match base64Decode imgData with
    | some decoded => decoded
    | none => imgData
  if imageData.length = 0 then .error "empty image data"
  else
    match imageDecode imageData with
    | none => .error "failed to decode image"
    | some img => .ok img

/-- Shallow embedding of the 3-argument `processArtwork(artworkData,
extractColor, rotationAngle)`: returns `(color, encoded, err)` like the Go
multi-value return. -/
def processArtwork (imageDecode : List Nat → Option Img)
    (km : Img → Option (List (Nat × Nat × Nat)))
    (resizeF : Nat → Img → Img) (pngB64 : Img → Option (List Char))
    (cfg : Config) (artworkData : List Nat) (extractColor : Bool)
    (rotationAngle : Int) : String × List Char × Option String :=
  match decodeArtworkData imageDecode artworkData with
  | .error e => ("", [], some e)
  | .ok img =>
    let color := if extractColor then
        match GoPlaying.extractDominantColor km (some img) with
        | .ok c => if c ≠ "" then c else ""
        | .error _ => ""
      else ""
    let encoded := match encodeArtworkForKitty resizeF pngB64 cfg (some img)
        rotationAngle with
      | .ok e => if e ≠ [] then e else []
      | .error _ => []
    (color, encoded, none)

/-- C6: `processArtwork` returns a non-nil error exactly when decoding
fails (and then both outputs are empty, propagating the decode error); an
empty input yields the hard "empty image data" error with both outputs
empty; after a successful decode no error is returned, a color-extraction
failure only leaves the color empty, and an encoding failure only leaves
the encoded string empty, each independent of the other. -/
theorem processArtwork_error_contract :
    ∀ (imageDecode : List Nat → Option Img)
      (km : Img → Option (List (Nat × Nat × Nat)))
      (resizeF : Nat → Img → Img) (pngB64 : Img → Option (List Char))
      (cfg : Config) (data : List Nat) (ec : Bool) (rot : Int),
    ((∃ e, (processArtwork imageDecode km resizeF pngB64 cfg data ec rot).2.2 = some e) ↔
      (∃ e, decodeArtworkData imageDecode data = .error e)) ∧
    (∀ e, decodeArtworkData imageDecode data = .error e →
      processArtwork imageDecode km resizeF pngB64 cfg data ec rot = ("", [], some e)) ∧
    (processArtwork imageDecode km resizeF pngB64 cfg [] ec rot =
      ("", [], some "empty image data")) ∧
    (∀ img, decodeArtworkData imageDecode data = .ok img →
      (processArtwork imageDecode km resizeF pngB64 cfg data ec rot).2.2 = none ∧
      ((¬∃ c, GoPlaying.extractDominantColor km (some img) = .ok c ∧ c ≠ "") →
        (processArtwork imageDecode km resizeF pngB64 cfg data ec rot).1 = "") ∧
      ((¬∃ e, encodeArtworkForKitty resizeF pngB64 cfg (some img) rot = .ok e ∧ e ≠ []) →
        (processArtwork imageDecode km resizeF pngB64 cfg data ec rot).2.1 = []) ∧
      (∀ c, GoPlaying.extractDominantColor km (some img) = .ok c → c ≠ "" →
        ec = true →
        (processArtwork imageDecode km resizeF pngB64 cfg data ec rot).1 = c) ∧
      (∀ e, encodeArtworkForKitty resizeF pngB64 cfg (some img) rot = .ok e →
        e ≠ [] →
        (processArtwork imageDecode km resizeF pngB64 cfg data ec rot).2.1 = e)) := by
  intro imageDecode km resizeF pngB64 cfg data ec rot
  refine ⟨?_, ?_, ?_, ?_⟩
  · constructor
    · rintro ⟨e, he⟩
      rcases hd : decodeArtworkData imageDecode data with e2 | img
      · exact ⟨e2, rfl⟩
      · rw [processArtwork, hd] at he
        exact absurd he (by simp)
    · rintro ⟨e, he⟩
      refine ⟨e, ?_⟩
      rw [processArtwork, he]
  · intro e he
    rw [processArtwork, he]
  · rw [processArtwork]
    have hdec : decodeArtworkData imageDecode [] = .error "empty image data" := rfl
    rw [hdec]
  · intro img hd
    refine ⟨by rw [processArtwork, hd], ?_, ?_, ?_, ?_⟩
    · intro hno
      rw [processArtwork, hd]
      simp only []
      rcases hx : GoPlaying.extractDominantColor km (some img) with e2 | c
      · cases ec <;> simp
      · by_cases hc : c = ""
        · cases ec <;> simp [hc]
        · exact absurd ⟨c, hx, hc⟩ hno
    · intro hno
      rw [processArtwork, hd]
      simp only []
      rcases hx : encodeArtworkForKitty resizeF pngB64 cfg (some img) rot with e2 | e
      · simp
      · by_cases he : e = []
        · simp [he]
        · exact absurd ⟨e, hx, he⟩ hno
    · intro c hx hc hec
      rw [processArtwork, hd, hec]
      simp only [hx]
      simp [hc]
    · intro e hx he
      rw [processArtwork, hd]
      simp only [hx]
      simp [he]

/-- Witness for C6 at concrete inputs: empty input data gives the hard
decode error with empty outputs, and an undecodable byte with a failing
external decoder propagates its error. -/
theorem processArtwork_error_contract_witness :
    (processArtwork (fun _ => none) (fun _ => none) (fun _ i => i)
      (fun _ => some ['A']) cfgC45 [] true 0 =
      ("", [], some "empty image data")) ∧
    (processArtwork (fun _ => none) (fun _ => none) (fun _ i => i)
      (fun _ => some ['A']) cfgC45 [0] true 0 =
      ("", [], some "failed to decode image")) :=
  ⟨(processArtwork_error_contract (fun _ => none) (fun _ => none) (fun _ i => i)
      (fun _ => some ['A']) cfgC45 [] true 0).2.2.1,
   (processArtwork_error_contract (fun _ => none) (fun _ => none) (fun _ i => i)
      (fun _ => some ['A']) cfgC45 [0] true 0).2.1 "failed to decode image" rfl⟩

/-! ## Vinyl rotation pixel pipeline

The current event loop (model.go) calls a 4-argument
`processArtwork(rawArtwork, extractColor, frameIndex, frameCount)` whose
rotation step is not among the bundled sources — the bundled artwork file
still has the 3-argument revision whose `rotationAngle` is unused.  The
rotate-and-crop step is therefore modelled from the spec below. -/

/-- Rational approximation of π (plays the role of the float64 constant). -/
def piQ : ℚ := 3.14159265358979323846

/-- Taylor polynomial for sine, accurate on one quadrant. -/
def sinQ (x : ℚ) : ℚ := x - x^3/6 + x^5/120 - x^7/5040 + x^9/362880

/-- Taylor polynomial for cosine, accurate on one quadrant. -/
def cosQ (x : ℚ) : ℚ := 1 - x^2/2 + x^4/24 - x^6/720 + x^8/40320

/-- Cosine of `t` turns (`t·360°`), by quadrant reduction. -/
def cosTurn (t : ℚ) : ℚ :=
  let tf := t - (⌊t⌋ : ℚ)
  let q : Int := ⌊4 * tf⌋
  let a := 2 * piQ * (tf - (q : ℚ) / 4)
  if q = 0 then cosQ a
  else if q = 1 then -(sinQ a)
  else if q = 2 then -(cosQ a)
  else sinQ a

/-- Sine of `t` turns (`t·360°`), by quadrant reduction. -/
def sinTurn (t : ℚ) : ℚ :=
  let tf := t - (⌊t⌋ : ℚ)
  let q : Int := ⌊4 * tf⌋
  let a := 2 * piQ * (tf - (q : ℚ) / 4)
  if q = 0 then sinQ a
  else if q = 1 then cosQ a
  else if q = 2 then -(sinQ a)
  else -(cosQ a)

/-- Modelled from the spec: the rotation step of the missing 4-argument
encoder — "rotate the pixel content by `frameIndex/totalFrames × 360°`" —
as a nearest-neighbour rotation about the image centre; destination pixels
that sample outside the source are transparent. -/
def rotateFrame (i N : Nat) (img : Img) : Img :=
  let t : ℚ := (i : ℚ) / (N : ℚ)
  let c := cosTurn t
  let s := sinTurn t
  let cx : ℚ := ((img.width : ℚ) - 1) / 2
  let cy : ℚ := ((img.height : ℚ) - 1) / 2
  { width := img.width, height := img.height,
    pix := fun x y =>
      let dx : ℚ := (x : ℚ) - cx
      let dy : ℚ := (y : ℚ) - cy
      let si : Int := ⌊cx + dx * c + dy * s + 1/2⌋
      let sj : Int := ⌊cy - dx * s + dy * c + 1/2⌋
      if 0 ≤ si ∧ si < (img.width : Int) ∧ 0 ≤ sj ∧ sj < (img.height : Int) then
        img.pix si.toNat sj.toNat
      else (0, 0, 0, 0) }

/-- Modelled from the spec: the "crop/mask to a circle" step of the missing
4-argument encoder — pixels outside the inscribed circle become
transparent. -/
def circleCrop (img : Img) : Img :=
  let cx : ℚ := ((img.width : ℚ) - 1) / 2
  let cy : ℚ := ((img.height : ℚ) - 1) / 2
  let r : ℚ := ((min img.width img.height : Nat) : ℚ) / 2
  { width := img.width, height := img.height,
    pix := fun x y =>
      if ((x : ℚ) - cx)^2 + ((y : ℚ) - cy)^2 ≤ r^2 then img.pix x y
      else (0, 0, 0, 0) }

/-- Modelled from the spec: the aspect-preserving resize to the configured
pixel width (nearest-neighbour standing in for the external Lanczos3
resampler; only the pipeline position of this step matters here). -/
def resizeNearest (W : Nat) (img : Img) : Img :=
  let H := img.height * W / img.width
  { width := W, height := H,
    pix := fun x y => img.pix (x * img.width / W) (y * img.height / H) }

/-- Modelled from the spec: the pixel content the Graphics Protocol Encoder
feeds to the PNG encoder for an optional rotation request — rotate by
`i/N` turns and crop to a circle before the resize when requested, just
the resize of the unrotated square artwork otherwise. -/
def vinylPixels (img : Img) (rot : Option (Nat × Nat)) (W : Nat) : Img :=
  match rot with
  | none => resizeNearest W img
  | some (i, N) => resizeNearest W (circleCrop (rotateFrame i N img))

/-- Pixel-content equality of two images. -/
def pixEq (a b : Img) : Prop :=
  a.width = b.width ∧ a.height = b.height ∧
  ∀ x, x < a.width → ∀ y, y < a.height → a.pix x y = b.pix x y

/-- On a 2×2 image, frame 0 of 4 is the identity on pixel content:
the rotation angle is 0 (cos 1, sin 0), the inscribed circle of radius 1
contains all four pixel centres, and the resize to width 2 is trivial. -/
lemma vinylPixels_two_frame0 (img : Img) (hw : img.width = 2) (hh : img.height = 2)
    (x y : Nat) (hx : x < 2) (hy : y < 2) :
    (vinylPixels img (some (0, 4)) 2).pix x y = img.pix x y := by
  interval_cases x <;> interval_cases y <;>
    · simp only [vinylPixels, resizeNearest, circleCrop, rotateFrame,
        cosTurn, sinTurn, cosQ, sinQ, piQ, hw, hh]
      norm_num

/-- On a 2×2 image, frame 1 of 4 rotates by a quarter turn
(cos 0, sin 1): destination pixel (x, y) samples source pixel (y, 1−x). -/
lemma vinylPixels_two_frame1 (img : Img) (hw : img.width = 2) (hh : img.height = 2)
    (x y : Nat) (hx : x < 2) (hy : y < 2) :
    (vinylPixels img (some (1, 4)) 2).pix x y = img.pix y (1 - x) := by
  interval_cases x <;> interval_cases y <;>
    · simp only [vinylPixels, resizeNearest, circleCrop, rotateFrame,
        cosTurn, sinTurn, cosQ, sinQ, piQ, hw, hh]
      norm_num

/-- A constant-colour 2×2 image (every pixel opaque red). -/
def cImgC2 : Img := { width := 2, height := 2, pix := fun _ _ => (100, 0, 0, 65535) }

/-- An asymmetric 2×2 image: only the top-left pixel is red. -/
def aImgC2 : Img :=
  { width := 2, height := 2,
    pix := fun x y => if x = 0 ∧ y = 0 then (65535, 0, 0, 65535) else (0, 0, 0, 65535) }

/-- C2 counterexample: the claim says two distinct frame indices produce
different pixel content, but on a rotationally constant image every frame
is identical — frames 0 and 1 (of 4, at output width 2) of a constant
2×2 image have exactly the same pixel content. -/
theorem vinyl_rotation_distinct_frames_counterexample :
    (0 : Nat) ≠ 1 ∧
    pixEq (vinylPixels cImgC2 (some (0, 4)) 2) (vinylPixels cImgC2 (some (1, 4)) 2) := by
  refine ⟨by decide, rfl, rfl, ?_⟩
  intro x hx y hy
  have hx2 : x < 2 := hx
  have hy2 : y < 2 := hy
  rw [vinylPixels_two_frame0 cImgC2 rfl rfl x y hx2 hy2,
    vinylPixels_two_frame1 cImgC2 rfl rfl x y hx2 hy2]
  rfl

/-- C2 (amended, modelled from the spec since the 4-argument encoder
revision is not among the bundled sources): for a rotation request the
encoder rotates by `i/N` turns and circle-crops BEFORE the resize; with
no rotation request both steps are skipped entirely and only the resize
runs; distinct frame indices below `N` give distinct rotation angles; and
there exists an (asymmetric) image on which two distinct frame indices do
produce different pixel content — though not on every image. -/
theorem vinyl_rotation_pipeline :
    (∀ img i N W, vinylPixels img (some (i, N)) W
        = resizeNearest W (circleCrop (rotateFrame i N img)))
    ∧ (∀ img W, vinylPixels img none W = resizeNearest W img)
    ∧ (∀ i j N : Nat, i < N → j < N → i ≠ j →
        (i : ℚ) / (N : ℚ) ≠ (j : ℚ) / (N : ℚ))
    ∧ (∃ img i j N W, i ≠ j ∧
        ¬ pixEq (vinylPixels img (some (i, N)) W) (vinylPixels img (some (j, N)) W)) := by
  refine ⟨fun img i N W => rfl, fun img W => rfl, ?_, ?_⟩
  · intro i j N hi hj hne h
    have hN : (N : ℚ) ≠ 0 := Nat.cast_ne_zero.mpr (by omega)
    have h2 : (i : ℚ) = (j : ℚ) := by
      field_simp at h
      exact_mod_cast h
    exact hne (by exact_mod_cast h2)
  · refine ⟨aImgC2, 0, 1, 4, 2, by decide, fun hpe => ?_⟩
    obtain ⟨_, _, hp⟩ := hpe
    have h00 := hp 0 (by decide) 0 (by decide)
    rw [vinylPixels_two_frame0 aImgC2 rfl rfl 0 0 (by decide) (by decide),
      vinylPixels_two_frame1 aImgC2 rfl rfl 0 0 (by decide) (by decide)] at h00
    exact absurd h00 (by decide)

/-- C2 witness: the rotate-and-crop-before-resize equation at a concrete
image, and distinct angles for frames 1 and 3 of 4. -/
theorem vinyl_rotation_pipeline_witness :
    vinylPixels cImgC2 (some (0, 4)) 2 = resizeNearest 2 (circleCrop (rotateFrame 0 4 cImgC2))
    ∧ ((1 : Nat) : ℚ) / ((4 : Nat) : ℚ) ≠ ((3 : Nat) : ℚ) / ((4 : Nat) : ℚ) :=
  ⟨vinyl_rotation_pipeline.1 cImgC2 0 4 2,
   vinyl_rotation_pipeline.2.2.1 1 3 4 (by decide) (by decide) (by decide)⟩
